import Mathlib

/-!
# MetaNovel-Engine: verification of the retry / batch-generation / refinement core

A shallow embedding of the request, retry-configuration, JSON-extraction,
critique-refine and batch-orchestration machinery of `llm_service.py`,
`config.py` and `workflow_ui.py`, together with theorems settling the
specification claims about them.

Conventions of the embedding:
* Python values that may be `None` are `Option`-typed; Python truthiness of an
  optional string (`if summary:`) is `pyTruthy`.
* Python `dict`s are association lists with insertion-order-preserving
  replace-or-append assignment (`Dict.insert`), matching CPython semantics.
* The string keys `"chapter_{i}"` used by the source are in bijection with the
  chapter number `i`; dictionaries keyed by such strings are modelled with the
  key `i : Nat` directly.
* External effects (the LLM completion call, `ui.confirm`, progress callbacks,
  file writes) are oracles passed in as explicit arguments; exceptions raised
  by an external call are explicit constructors of an outcome type.
-/

set_option autoImplicit false

namespace MetaNovel

/-- Python truthiness of an optional string: `None` and `""` are falsy,
every other string is truthy. -/
def pyTruthy : Option String → Bool
  | none => false
  | some s => !(s == "")

/-- A Python `dict` keyed by `α`: an association list without duplicate keys,
kept in insertion order. -/
abbrev Dict (α : Type) (β : Type) : Type := List (α × β)

namespace Dict

/-- The empty dict `{}`. -/
def empty {α β : Type} : Dict α β := []

/-- `d[k] = v`: replace the binding in place if `k` is present, else append. -/
def insert {α β : Type} [DecidableEq α] : Dict α β → α → β → Dict α β
  | [], k, v => [(k, v)]
  | (k', v') :: rest, k, v =>
    if k' = k then (k, v) :: rest else (k', v') :: insert rest k v

/-- `d.get(k)` / `k in d`: first binding of `k`. -/
def get? {α β : Type} [DecidableEq α] : Dict α β → α → Option β
  | [], _ => none
  | (k', v') :: rest, k => if k' = k then some v' else get? rest k

/-- Number of entries (`len(d)`). -/
def size {α β : Type} (d : Dict α β) : Nat := List.length d

/-- The keys, in insertion order. -/
def keys {α β : Type} (d : Dict α β) : List α := List.map Prod.fst d

/-- `{**a, **b}`: start from `a` and assign every binding of `b` in order. -/
def merge {α β : Type} [DecidableEq α] (a b : Dict α β) : Dict α β :=
  List.foldl (fun acc kv => insert acc kv.1 kv.2) a b

theorem get?_insert {α β : Type} [DecidableEq α] (d : Dict α β) (k : α) (v : β) (k' : α) :
    get? (insert d k v) k' = if k = k' then some v else get? d k' := by
  induction d with
  | nil =>
    by_cases h : k = k' <;> simp [insert, get?, h]
  | cons hd tl ih =>
    obtain ⟨k₀, v₀⟩ := hd
    by_cases h0 : k₀ = k
    · subst h0
      by_cases h : k₀ = k' <;> simp [insert, get?, h]
    · by_cases h : k₀ = k'
      · subst h
        have hkk : ¬ k = k₀ := fun hc => h0 hc.symm
        simp [insert, get?, h0, hkk]
      · simp [insert, get?, h0, h, ih]

theorem insert_fresh {α β : Type} [DecidableEq α] (d : Dict α β) (k : α) (v : β)
    (h : k ∉ keys d) : insert d k v = d ++ [(k, v)] := by
  induction d with
  | nil => rfl
  | cons hd tl ih =>
    obtain ⟨k₀, v₀⟩ := hd
    have hk0 : ¬ k₀ = k := by
      intro hc; exact h (by simp [keys, hc])
    have htl : k ∉ keys tl := fun hc => h (by simp [keys] at hc ⊢; exact Or.inr hc)
    simp [insert, hk0, ih htl]

theorem get?_eq_none_of_not_mem_keys {α β : Type} [DecidableEq α] (d : Dict α β) (k : α)
    (h : k ∉ keys d) : get? d k = none := by
  induction d with
  | nil => rfl
  | cons hd tl ih =>
    obtain ⟨k₀, v₀⟩ := hd
    have hk0 : ¬ k₀ = k := by
      intro hc; exact h (by simp [keys, hc])
    have htl : k ∉ keys tl := fun hc => h (by simp [keys] at hc ⊢; exact Or.inr hc)
    simp [get?, hk0, ih htl]

theorem get?_isSome_of_mem_keys {α β : Type} [DecidableEq α] (d : Dict α β) (k : α)
    (h : k ∈ keys d) : (get? d k).isSome := by
  induction d with
  | nil => simp [keys] at h
  | cons hd tl ih =>
    obtain ⟨k₀, v₀⟩ := hd
    by_cases hk : k₀ = k
    · simp [get?, hk]
    · have : k ∈ keys tl := by
        simp [keys] at h
        rcases h with h | h
        · exact absurd h.symm hk
        · simpa [keys] using h
      simp [get?, hk, ih this]

/-- Looking a key up in `{**a, **b}` when no binding of `b` uses that key gives
the binding from `a`. -/
theorem get?_merge_of_not_mem {α β : Type} [DecidableEq α] (a b : Dict α β) (k : α)
    (h : k ∉ keys b) : get? (merge a b) k = get? a k := by
  induction b generalizing a with
  | nil => rfl
  | cons hd tl ih =>
    obtain ⟨k₀, v₀⟩ := hd
    have hk0 : ¬ k₀ = k := by
      intro hc; exact h (by simp [keys, hc])
    have htl : k ∉ keys tl := fun hc => h (by simp [keys] at hc ⊢; exact Or.inr hc)
    have : get? (insert a k₀ v₀) k = get? a k := by
      rw [get?_insert]; simp [hk0]
    calc get? (merge a ((k₀, v₀) :: tl)) k
        = get? (merge (insert a k₀ v₀) tl) k := rfl
      _ = get? (insert a k₀ v₀) k := ih _ htl
      _ = get? a k := this

end Dict

/-! ## Retry configuration (`config.py`)

`RETRY_CONFIG` has further entries (status codes, keyword lists, jitter
switches); `set_retry_config` mutates, and `get_retry_config` reads, exactly
the three fields modelled here, so the state is restricted to them.
Numeric values are modelled as `Int` (Python `int(...)`) and `ℚ`
(Python `float(...)`); no float rounding occurs in the code under study. -/

/-- The three entries of `RETRY_CONFIG` touched by the setter / getter:
`max_retries`, `base_delay`, `backoff_multiplier`. -/
structure RetryConfigState where
  maxRetries : Int
  baseDelay : ℚ
  backoffMultiplier : ℚ
deriving DecidableEq, Repr

/-- An argument to `set_retry_config`: a mapping that may or may not carry the
keys `"retries"`, `"delay"`, `"backoff"` (`dict.get` with a default). -/
structure RetryConfigInput where
  retries : Option Int
  delay : Option ℚ
  backoff : Option ℚ
deriving DecidableEq, Repr

/-- `config.py`: `DEFAULT_RETRY_CONFIG = {"max_retries": 3, "base_delay": 1.0,
"max_delay": 30.0, "backoff_multiplier": 2.0}`, viewed through the keys
`set_retry_config` reads (`"retries"`, `"delay"`, `"backoff"`): none of the
three is present, so every `.get` falls back to its default. -/
def DEFAULT_RETRY_CONFIG_input : RetryConfigInput :=
  { retries := none, delay := none, backoff := none }

/-- `config.py` `set_retry_config`: each field is
`new_config.get(key, DEFAULT_RETRY_CONFIG[default_key])` coerced by
`int` / `float`. -/
def set_retry_config (_st : RetryConfigState) (c : RetryConfigInput) : RetryConfigState :=
  { maxRetries := c.retries.getD 3
    baseDelay := c.delay.getD 1
    backoffMultiplier := c.backoff.getD 2 }

/-- `config.py` `get_retry_config`: returns
`{"retries": .., "delay": .., "backoff": ..}`. -/
def get_retry_config (st : RetryConfigState) : Int × ℚ × ℚ :=
  (st.maxRetries, st.baseDelay, st.backoffMultiplier)

/-- `config.py` `reset_retry_config`: `set_retry_config(DEFAULT_RETRY_CONFIG)`. -/
def reset_retry_config (st : RetryConfigState) : RetryConfigState :=
  set_retry_config st DEFAULT_RETRY_CONFIG_input

/-! ## Content request layer (`llm_service.py` `_make_request` /
`_make_async_request`, with_retry=True path)

The underlying `retry_manager.retry_sync/retry_async` call (module
`retry_utils`, external to the sources) either returns text, raises
`RetryError` after exhausting retries, or raises any other (non-retryable)
exception; its outcome is the oracle below.  The `try/except` of
`_make_request` maps both failure constructors to `None` after printing, so
the translation is a total function into `Option String` with no exception
channel. -/

/-- Outcome of `retry_manager.retry_sync/retry_async` on the wrapped LLM call. -/
inductive RetryOutcome where
  /-- The call (after any retries) produced text. -/
  | ok (text : String)
  /-- `RetryError` raised: retries exhausted; carries `retry_count` and the
  message of `last_exception`. -/
  | retryExhausted (retryCount : Nat) (lastException : String)
  /-- Any other exception: a non-retryable error with its message. -/
  | nonRetryable (message : String)
deriving DecidableEq, Repr

/-- `llm_service.py` `_make_request` (with_retry=True): unavailable client
returns `None`; otherwise the retry outcome is caught and mapped. -/
def makeRequest (available : Bool) (outcome : RetryOutcome) : Option String :=
  if !available then none
  else
    match outcome with
    | .ok text => some text
    | .retryExhausted _ _ => none
    | .nonRetryable _ => none

/-- `llm_service.py` `_make_async_request` (with_retry=True): identical
decision logic; additionally emits the failure message through the progress
callback when one is supplied.  Returns (result, messages emitted). -/
def makeAsyncRequest (available : Bool) (outcome : RetryOutcome)
    (taskName : String) (hasCallback : Bool) : Option String × List String :=
  if !available then (none, [])
  else
    match outcome with
    | .ok text => (some text, [])
    | .retryExhausted n e =>
      (none, if hasCallback
        then ["[" ++ taskName ++ "] 重试" ++ toString n ++ "次后仍失败: " ++ e]
        else [])
    | .nonRetryable e =>
      (none, if hasCallback then ["[" ++ taskName ++ "] 不可重试的错误: " ++ e] else [])

/-! ## Backoff computation (spec-modelled)

The delay computation lives in `retry_utils`, which is not among the source
files (only `config.py`'s `RETRY_CONFIG` and the callers in `llm_service.py`
are). -/

/-- The retry configuration fields entering the backoff computation. -/
structure BackoffConfig where
  baseDelay : ℚ
  maxDelay : ℚ
  backoffMultiplier : ℚ
  jitterEnabled : Bool
  jitterRange : ℚ
deriving DecidableEq, Repr

/-- Modelled from the spec: the backoff delay of the retry manager
(`retry_utils`, missing from the sources) before the (n+1)-th try:
`delay = min(max_delay, base_delay * backoff_multiplier^n)`; if jitter is
enabled, add a uniformly sampled value in `[0, jitter_range]` (the sample is
the oracle `jitterSample`). -/
def backoffDelay (cfg : BackoffConfig) (n : Nat) (jitterSample : ℚ) : ℚ :=
  min cfg.maxDelay (cfg.baseDelay * cfg.backoffMultiplier ^ n) +
    (if cfg.jitterEnabled then jitterSample else 0)

/-! ## Critique-refine pipeline (`llm_service.py`
`generate_novel_chapter_with_refinement`, sync and async)

The three LLM steps (draft, critique, refinement) are oracles of type
`Option String` (the value the corresponding generation call would return);
`ui.confirm` is the oracle `confirm`.  Saving drafts / critiques / history
and the progress-callback messages are side effects with no influence on the
returned content and are not modelled. -/

/-- The `GENERATION_CONFIG` entries the pipeline consults:
`.get('enable_refinement', True)` and `.get('refinement_mode', 'auto')`. -/
structure GenerationConfig where
  enableRefinement : Bool
  refinementMode : String
deriving DecidableEq, Repr

/-- `llm_service.py` `generate_novel_chapter_with_refinement` (blocking):
draft, bail out on falsy draft; skip everything if refinement disabled in the
config; critique, fall back to the draft on falsy critique; consult
`refinement_mode` (`disabled` returns the draft, `manual` asks `ui.confirm`);
refine, fall back to the draft on falsy refinement. -/
def generateNovelChapterWithRefinement (cfg : GenerationConfig)
    (draft critique refined : Option String) (confirm : Bool) : Option String :=
  if !pyTruthy draft then none
  else if !cfg.enableRefinement then draft
  else if !pyTruthy critique then draft
  else if cfg.refinementMode == "disabled" then draft
  else if cfg.refinementMode == "manual" && !confirm then draft
  else if !pyTruthy refined then draft
  else refined

/-- `llm_service.py` `generate_novel_chapter_with_refinement_async`: same
steps, except that the `refinement_mode` check only special-cases
`'disabled'` — there is no `'manual'` branch and no confirmation prompt in
the async pipeline. -/
def generateNovelChapterWithRefinementAsync (cfg : GenerationConfig)
    (draft critique refined : Option String) : Option String :=
  if !pyTruthy draft then none
  else if !cfg.enableRefinement then draft
  else if !pyTruthy critique then draft
  else if cfg.refinementMode == "disabled" then draft
  else if !pyTruthy refined then draft
  else refined

/-- The refinement step of the blocking pipeline ran and produced truthy
content. -/
def refinementRanAndSucceeded (cfg : GenerationConfig)
    (draft critique refined : Option String) (confirm : Bool) : Bool :=
  pyTruthy draft && cfg.enableRefinement && pyTruthy critique &&
    !(cfg.refinementMode == "disabled") &&
    !(cfg.refinementMode == "manual" && !confirm) && pyTruthy refined

/-- The refinement step of the async pipeline ran and produced truthy
content. -/
def refinementRanAndSucceededAsync (cfg : GenerationConfig)
    (draft critique refined : Option String) : Bool :=
  pyTruthy draft && cfg.enableRefinement && pyTruthy critique &&
    !(cfg.refinementMode == "disabled") && pyTruthy refined

/-! ## The task creation of `generate_all_summaries_async` (`llm_service.py`
line 1136) and the signature of `generate_chapter_summary_async` -/

/-- A chapter card: a dict whose relevant entries are `order` /
`chapter_number` and `title` (absent keys are `none`). -/
structure Chapter where
  order : Option Nat
  title : Option String
deriving DecidableEq, Repr

/-- A dynamically-typed Python argument value, as far as the claims need to
distinguish them: a string, the supplied progress-callback object, or
`None`. -/
inductive PyArg where
  | str (s : String)
  | callback
  | noneV
deriving DecidableEq, Repr

/-- The formal parameters of
`generate_chapter_summary_async(self, chapter_card, chapter_num,
context_info, canon="", user_prompt="", progress_callback=None)`, as bound at
a call site. -/
structure SummaryAsyncArgs where
  chapterCard : Chapter
  chapterNum : Nat
  contextInfo : String
  canon : PyArg
  userPrompt : PyArg
  progressCallback : PyArg
deriving DecidableEq, Repr

/-- `llm_service.py` line 1136, the task creation inside
`generate_all_summaries_async`:
`self.generate_chapter_summary_async(chapter, i, context_info, user_prompt,
progress_callback)` — five positional arguments, so `user_prompt` binds to
the `canon` parameter, `progress_callback` binds to the `user_prompt`
parameter, and the `progress_callback` parameter keeps its default `None`. -/
def mkSummaryTaskCall (chapter : Chapter) (i : Nat) (contextInfo : String)
    (userPrompt : String) (progressCallback : PyArg) : SummaryAsyncArgs :=
  { chapterCard := chapter
    chapterNum := i
    contextInfo := contextInfo
    canon := .str userPrompt
    userPrompt := progressCallback
    progressCallback := .noneV }

/-- What `generate_chapter_summary_async` does with its arguments, as far as
the claim is concerned: `canon` and `user_prompt` (after the
`if user_prompt is None: user_prompt = ""` coercion) are substituted into the
prompt, and `progress_callback` is the only callback forwarded to
`_make_async_request`. -/
structure SummaryRequestSpec where
  canonUsed : PyArg
  userPromptUsed : PyArg
  callbackForwarded : PyArg
deriving DecidableEq, Repr

/-- The data flow of `generate_chapter_summary_async` from its parameters to
the issued request. -/
def generateChapterSummaryAsyncRequest (args : SummaryAsyncArgs) : SummaryRequestSpec :=
  { canonUsed := args.canon
    userPromptUsed := if args.userPrompt = .noneV then .str "" else args.userPrompt
    callbackForwarded := args.progressCallback }

/-! ## Concurrent batch orchestrators (`llm_service.py`
`generate_all_summaries_async`, `generate_all_novels_with_refinement_async`)

`asyncio.gather(*tasks, return_exceptions=True)` yields one outcome per
dispatched task, in task order: either the coroutine's return value or the
exception it raised.  The outcome list is the oracle; the result-processing
loop (which never raises: progress callbacks are modelled as pure side
effects) is embedded as a fold. -/

/-- One element of the list returned by
`asyncio.gather(..., return_exceptions=True)`. -/
inductive TaskOutcome where
  /-- The task raised; `isinstance(x, Exception)` holds for its slot. -/
  | exn (message : String)
  /-- The task returned a value (`None` or a string). -/
  | value (r : Option String)
deriving DecidableEq, Repr

/-- A task counts as succeeded when its slot holds a truthy string
(`elif summary:` / `elif content:`). -/
def outcomeSucceeds : TaskOutcome → Bool
  | .exn _ => false
  | .value r => pyTruthy r

/-- Python `enumerate(l, n)`. -/
def enumFrom {α : Type} : Nat → List α → List (Nat × α)
  | _, [] => []
  | n, a :: as => (n, a) :: enumFrom (n + 1) as

/-- `f'第{i}章'`, the default chapter title. -/
def defaultTitle (i : Nat) : String := "第" ++ toString i ++ "章"

/-- A `results` entry of the summary batch:
`{"title": .., "summary": ..}`. -/
structure SummaryEntry where
  title : String
  summary : String
deriving DecidableEq, Repr

/-- A `results` entry of the prose batches:
`{"title": .., "content": .., "word_count": len(content)}`. -/
structure NovelEntry where
  title : String
  content : String
  wordCount : Nat
deriving DecidableEq, Repr

/-- The result-processing loop shared by the batch methods (`for (i, chapter,
_), x in zip(tasks, gathered):`): an exception or a falsy value appends `i`
to `failed_chapters`, a truthy value stores `mk i chapter text` under the key
`chapter_{i}` (modelled by `i`). -/
def batchCollect {β : Type} (mk : Nat → Chapter → String → β) :
    Dict Nat β × List Nat → List ((Nat × Chapter) × TaskOutcome) → Dict Nat β × List Nat
  | acc, [] => acc
  | (results, failed), ((i, ch), out) :: rest =>
    match out with
    | .exn _ => batchCollect mk (results, failed ++ [i]) rest
    | .value r =>
      if pyTruthy r then
        batchCollect mk (Dict.insert results i (mk i ch (r.getD "")), failed) rest
      else
        batchCollect mk (results, failed ++ [i]) rest

/-- The entry a successful pair contributes to `results`. -/
def successEntry {β : Type} (mk : Nat → Chapter → String → β)
    (p : (Nat × Chapter) × TaskOutcome) : Nat × β :=
  (p.1.1, mk p.1.1 p.1.2 (match p.2 with | .exn _ => "" | .value r => r.getD ""))

/-- `llm_service.py` `generate_all_summaries_async`: dispatches one task per
chapter (`enumerate(chapters, 1)`), gathers, and collects
`{"title": chapter.get('title', f'第{i}章'), "summary": summary}` per truthy
result. -/
def generateAllSummariesAsync (available : Bool) (chapters : List Chapter)
    (outcomes : List TaskOutcome) : Dict Nat SummaryEntry × List Nat :=
  if !available then ([], [])
  else
    batchCollect (fun i ch s => ⟨ch.title.getD (defaultTitle i), s⟩) ([], [])
      ((enumFrom 1 chapters).zip outcomes)

/-- `llm_service.py` `generate_all_novels_with_refinement_async`: dispatches
one task per chapter index `i ∈ 1..len(chapters)` whose key `chapter_{i}` is
present in `summaries`, gathers, and collects
`{"title": .., "content": content, "word_count": len(content)}` per truthy
result. -/
def generateAllNovelsWithRefinementAsync {σ : Type} (available : Bool)
    (chapters : List Chapter) (summaries : Dict Nat σ)
    (outcomes : List TaskOutcome) : Dict Nat NovelEntry × List Nat :=
  if !available then ([], [])
  else
    batchCollect (fun i ch s => ⟨ch.title.getD (defaultTitle i), s, s.length⟩) ([], [])
      (((enumFrom 1 chapters).filter
          (fun p => (Dict.get? summaries p.1).isSome)).zip outcomes)

theorem enumFrom_length {α : Type} (n : Nat) (l : List α) :
    (enumFrom n l).length = l.length := by
  induction l generalizing n with
  | nil => rfl
  | cons a as ih => simp [enumFrom, ih]

theorem enumFrom_fst_ge {α : Type} (n : Nat) (l : List α) :
    ∀ p ∈ enumFrom n l, n ≤ p.1 := by
  induction l generalizing n with
  | nil => intro p hp; simp [enumFrom] at hp
  | cons a as ih =>
    intro p hp
    simp only [enumFrom, List.mem_cons] at hp
    rcases hp with rfl | hp
    · exact Nat.le_refl n
    · exact Nat.le_of_succ_le (ih (n + 1) p hp)

theorem enumFrom_map_fst_nodup {α : Type} (n : Nat) (l : List α) :
    ((enumFrom n l).map Prod.fst).Nodup := by
  induction l generalizing n with
  | nil => simp [enumFrom]
  | cons a as ih =>
    simp only [enumFrom, List.map_cons, List.nodup_cons]
    refine ⟨?_, ih (n + 1)⟩
    intro hmem
    rcases List.mem_map.1 hmem with ⟨p, hp, hfst⟩
    have := enumFrom_fst_ge (n + 1) as p hp
    omega

theorem get?_isSome_iff_mem_keys {α β : Type} [DecidableEq α] (d : Dict α β) (k : α) :
    (Dict.get? d k).isSome = true ↔ k ∈ Dict.keys d := by
  constructor
  · intro h
    by_contra hmem
    rw [Dict.get?_eq_none_of_not_mem_keys d k hmem] at h
    simp at h
  · exact Dict.get?_isSome_of_mem_keys d k

theorem mem_keys_insert {α β : Type} [DecidableEq α] (d : Dict α β) (k : α) (v : β) (k' : α)
    (h : k' ∈ Dict.keys (Dict.insert d k v)) : k' = k ∨ k' ∈ Dict.keys d := by
  have hs : (Dict.get? (Dict.insert d k v) k').isSome = true :=
    Dict.get?_isSome_of_mem_keys _ _ h
  rw [Dict.get?_insert] at hs
  by_cases hk : k = k'
  · exact Or.inl hk.symm
  · rw [if_neg hk] at hs
    exact Or.inr ((get?_isSome_iff_mem_keys d k').1 hs)

theorem length_filter_partition {α : Type} (q : α → Bool) (l : List α) :
    (l.filter q).length + (l.filter (fun a => !q a)).length = l.length := by
  induction l with
  | nil => rfl
  | cons a as ih =>
    by_cases h : q a <;> simp [List.filter_cons, h] <;> omega

theorem batchCollect_snd {β : Type} (mk : Nat → Chapter → String → β)
    (pairs : List ((Nat × Chapter) × TaskOutcome)) (results : Dict Nat β) (failed : List Nat) :
    (batchCollect mk (results, failed) pairs).2 =
      failed ++ (pairs.filter (fun p => !outcomeSucceeds p.2)).map (fun p => p.1.1) := by
  induction pairs generalizing results failed with
  | nil => simp [batchCollect]
  | cons hd tl ih =>
    obtain ⟨⟨i, ch⟩, out⟩ := hd
    cases out with
    | exn m => simp [batchCollect, outcomeSucceeds, ih]
    | value r =>
      by_cases hr : pyTruthy r = true
      · simp [batchCollect, outcomeSucceeds, hr, ih]
      · simp [batchCollect, outcomeSucceeds, hr, ih]

theorem batchCollect_fst {β : Type} (mk : Nat → Chapter → String → β)
    (pairs : List ((Nat × Chapter) × TaskOutcome)) (results : Dict Nat β) (failed : List Nat)
    (hfresh : ∀ p ∈ pairs, p.1.1 ∉ Dict.keys results)
    (hnodup : (pairs.map (fun p => p.1.1)).Nodup) :
    (batchCollect mk (results, failed) pairs).1 =
      results ++ (pairs.filter (fun p => outcomeSucceeds p.2)).map (successEntry mk) := by
  induction pairs generalizing results failed with
  | nil => simp [batchCollect]
  | cons hd tl ih =>
    obtain ⟨⟨i, ch⟩, out⟩ := hd
    have hifresh : i ∉ Dict.keys results := hfresh _ (List.mem_cons_self _ _)
    have htlnodup : (tl.map (fun p => p.1.1)).Nodup := (List.nodup_cons.1 hnodup).2
    have hihd : i ∉ tl.map (fun p => p.1.1) := (List.nodup_cons.1 hnodup).1
    cases out with
    | exn m =>
      have htlfresh : ∀ p ∈ tl, p.1.1 ∉ Dict.keys results :=
        fun p hp => hfresh p (List.mem_cons_of_mem _ hp)
      simp [batchCollect, outcomeSucceeds, ih _ _ htlfresh htlnodup]
    | value r =>
      by_cases hr : pyTruthy r = true
      · have hins : Dict.insert results i (mk i ch (r.getD "")) =
            results ++ [(i, mk i ch (r.getD ""))] := Dict.insert_fresh _ _ _ hifresh
        have htlfresh : ∀ p ∈ tl,
            p.1.1 ∉ Dict.keys (results ++ [(i, mk i ch (r.getD ""))]) := by
          intro p hp hmem
          simp only [Dict.keys, List.map_append, List.mem_append, List.map_cons,
            List.map_nil, List.mem_cons, List.not_mem_nil, or_false] at hmem
          rcases hmem with hmem | hmem
          · exact hfresh p (List.mem_cons_of_mem _ hp) hmem
          · exact hihd (hmem ▸ List.mem_map_of_mem (fun p => p.1.1) hp)
        have hstep : batchCollect mk (results, failed) (((i, ch), TaskOutcome.value r) :: tl)
            = batchCollect mk (results ++ [(i, mk i ch (r.getD ""))], failed) tl := by
          simp [batchCollect, hr, hins]
        rw [hstep, ih _ _ htlfresh htlnodup]
        simp [outcomeSucceeds, hr, successEntry, List.filter_cons, List.append_assoc]
      · have htlfresh : ∀ p ∈ tl, p.1.1 ∉ Dict.keys results :=
          fun p hp => hfresh p (List.mem_cons_of_mem _ hp)
        simp [batchCollect, outcomeSucceeds, hr, ih _ _ htlfresh htlnodup]

theorem enumFrom_mem_snd {α : Type} (n : Nat) (l : List α) :
    ∀ p ∈ enumFrom n l, p.2 ∈ l := by
  induction l generalizing n with
  | nil => intro p hp; simp [enumFrom] at hp
  | cons a as ih =>
    intro p hp
    simp only [enumFrom, List.mem_cons] at hp
    rcases hp with rfl | hp
    · exact List.mem_cons_self _ _
    · exact List.mem_cons_of_mem _ (ih (n + 1) p hp)

/-- Core partition property of the result-processing loop: over a task list
with pairwise distinct indices and one gathered outcome per task, the results
dict and failed list sizes sum to the task count, a task index is in the
results exactly when it is not in the failed list, the two are disjoint, and
no tasks yield empty output. -/
theorem batchRun_partition {β : Type} (mk : Nat → Chapter → String → β)
    (tasks : List (Nat × Chapter)) (outcomes : List TaskOutcome)
    (hnodup : (tasks.map Prod.fst).Nodup) (hlen : outcomes.length = tasks.length) :
    (batchCollect mk ([], []) (tasks.zip outcomes)).1.length
        + (batchCollect mk ([], []) (tasks.zip outcomes)).2.length = tasks.length ∧
    (∀ i ∈ tasks.map Prod.fst,
        ((Dict.get? (batchCollect mk ([], []) (tasks.zip outcomes)).1 i).isSome = true
          ↔ i ∉ (batchCollect mk ([], []) (tasks.zip outcomes)).2)) ∧
    (∀ i, ¬((Dict.get? (batchCollect mk ([], []) (tasks.zip outcomes)).1 i).isSome = true
          ∧ i ∈ (batchCollect mk ([], []) (tasks.zip outcomes)).2)) ∧
    (tasks = [] → batchCollect mk ([], []) (tasks.zip outcomes) = ([], [])) := by
  set pairs := tasks.zip outcomes with hpairs
  have hmapfst : pairs.map Prod.fst = tasks :=
    List.map_fst_zip tasks outcomes (le_of_eq hlen.symm)
  have hmapidx : pairs.map (fun p => p.1.1) = tasks.map Prod.fst := by
    rw [show (fun (p : (Nat × Chapter) × TaskOutcome) => p.1.1)
        = Prod.fst ∘ Prod.fst from rfl, ← List.map_map, hmapfst]
  have hpnodup : (pairs.map (fun p => p.1.1)).Nodup := by rw [hmapidx]; exact hnodup
  have hfst := batchCollect_fst mk pairs [] []
    (by intro p _ h; simp [Dict.keys] at h) hpnodup
  have hsnd := batchCollect_snd mk pairs [] []
  simp only [List.nil_append] at hfst hsnd
  have hkeys : Dict.keys (batchCollect mk ([], []) pairs).1
      = (pairs.filter (fun p => outcomeSucceeds p.2)).map (fun p => p.1.1) := by
    rw [hfst]
    show List.map Prod.fst (List.map (successEntry mk) _) = _
    rw [List.map_map]
    rfl
  have hdisj : ∀ i, i ∈ (pairs.filter (fun p => outcomeSucceeds p.2)).map (fun p => p.1.1) →
      i ∈ (pairs.filter (fun p => !outcomeSucceeds p.2)).map (fun p => p.1.1) → False := by
    intro i hi hj
    rcases List.mem_map.1 hi with ⟨p, hp, hpi⟩
    rcases List.mem_map.1 hj with ⟨q, hq, hqi⟩
    have hpq : p = q :=
      List.inj_on_of_nodup_map hpnodup (List.mem_of_mem_filter hp)
        (List.mem_of_mem_filter hq) (hpi.trans hqi.symm)
    subst hpq
    have h1 : outcomeSucceeds p.2 = true := (List.mem_filter.1 hp).2
    have h2 : (!outcomeSucceeds p.2) = true := (List.mem_filter.1 hq).2
    rw [h1] at h2
    simp at h2
  have hcomplete : ∀ i ∈ pairs.map (fun p => p.1.1),
      i ∈ (pairs.filter (fun p => outcomeSucceeds p.2)).map (fun p => p.1.1) ∨
      i ∈ (pairs.filter (fun p => !outcomeSucceeds p.2)).map (fun p => p.1.1) := by
    intro i hi
    rcases List.mem_map.1 hi with ⟨p, hp, hpi⟩
    by_cases hs : outcomeSucceeds p.2 = true
    · exact Or.inl (List.mem_map.2 ⟨p, List.mem_filter.2 ⟨hp, hs⟩, hpi⟩)
    · exact Or.inr (List.mem_map.2 ⟨p, List.mem_filter.2 ⟨hp, by simp [hs]⟩, hpi⟩)
  refine ⟨?_, ?_, ?_, ?_⟩
  · rw [hfst, hsnd]
    simp only [List.length_map, List.length_append]
    have := length_filter_partition (fun p => outcomeSucceeds p.2) pairs
    have hplen : pairs.length = tasks.length := by
      rw [hpairs, List.length_zip, hlen, Nat.min_self]
    omega
  · intro i hi
    rw [← hmapidx] at hi
    constructor
    · intro hsome hmemf
      have h1 : i ∈ Dict.keys (batchCollect mk ([], []) pairs).1 :=
        (get?_isSome_iff_mem_keys _ _).1 hsome
      rw [hkeys] at h1
      rw [hsnd] at hmemf
      exact hdisj i h1 hmemf
    · intro hnf
      rcases hcomplete i hi with h | h
      · exact (get?_isSome_iff_mem_keys _ _).2 (by rw [hkeys]; exact h)
      · exact absurd (by rw [hsnd]; exact h) hnf
  · rintro i ⟨hsome, hmemf⟩
    have h1 : i ∈ Dict.keys (batchCollect mk ([], []) pairs).1 :=
      (get?_isSome_iff_mem_keys _ _).1 hsome
    rw [hkeys] at h1
    rw [hsnd] at hmemf
    exact hdisj i h1 hmemf
  · intro htasks
    subst htasks
    rfl

/-! ## Batch summary generation in the workflow layer (`workflow_ui.py`
`generate_all_summaries`)

The selection loop runs `enumerate(chapters)` with `order = ch.get("order",
i + 1)` (position-based default); the generation loop runs
`enumerate(chapters_to_generate, 1)` with `order = chapter.get("order", i)`.
`ui.confirm`, service availability and the per-chapter generation outcome are
oracles; the function's observable output is the dict passed to
`dm.write_chapter_summaries`, or `none` when no write happens. -/

/-- The selection pass of `generate_all_summaries`: chapters whose key
`chapter_{order}` is not yet among the stored summaries. -/
def chaptersToGenerate {σ : Type} (chapters : List Chapter)
    (summaries : Dict Nat σ) : List Chapter :=
  ((enumFrom 1 chapters).filter
    (fun p => (Dict.get? summaries (p.2.order.getD p.1)).isNone)).map Prod.snd

/-- The generation loop of `generate_all_summaries`: one synchronous
`generate_chapter_summary` call per selected chapter; an exception or a falsy
summary appends `order` to `failed_chapters`, a truthy one stores
`{"title": .., "summary": ..}` under `chapter_{order}`. -/
def summariesGenLoop (gen : Nat → Chapter → TaskOutcome) :
    Dict Nat SummaryEntry × List Nat → List (Nat × Chapter) →
    Dict Nat SummaryEntry × List Nat
  | acc, [] => acc
  | (results, failed), (i, ch) :: rest =>
    let order := ch.order.getD i
    match gen order ch with
    | .exn _ => summariesGenLoop gen (results, failed ++ [order]) rest
    | .value r =>
      if pyTruthy r then
        summariesGenLoop gen
          (Dict.insert results order ⟨ch.title.getD (defaultTitle order), r.getD ""⟩, failed)
          rest
      else summariesGenLoop gen (results, failed ++ [order]) rest

/-- `workflow_ui.py` `generate_all_summaries`: select the un-generated
chapters, bail out (no write) when nothing is selected, the service is
unavailable, the operator declines, or no result was produced; otherwise
write `{**summaries, **results}`. -/
def generateAllSummariesWorkflow (available confirmed : Bool)
    (chapters : List Chapter) (summaries : Dict Nat SummaryEntry)
    (gen : Nat → Chapter → TaskOutcome) : Option (Dict Nat SummaryEntry) :=
  let toGen := chaptersToGenerate chapters summaries
  if toGen.isEmpty then none
  else if !available then none
  else if !confirmed then none
  else
    let collected := summariesGenLoop gen (Dict.empty, []) (enumFrom 1 toGen)
    if collected.1.isEmpty then none
    else some (Dict.merge summaries collected.1)

theorem summariesGenLoop_keys_sub (gen : Nat → Chapter → TaskOutcome)
    (pairs : List (Nat × Chapter)) (results : Dict Nat SummaryEntry) (failed : List Nat) :
    ∀ k ∈ Dict.keys (summariesGenLoop gen (results, failed) pairs).1,
      k ∈ Dict.keys results ∨ ∃ p ∈ pairs, k = p.2.order.getD p.1 := by
  induction pairs generalizing results failed with
  | nil => intro k hk; exact Or.inl hk
  | cons hd tl ih =>
    obtain ⟨i, ch⟩ := hd
    intro k hk
    cases hgen : gen (ch.order.getD i) ch with
    | exn m =>
      simp only [summariesGenLoop, hgen] at hk
      rcases ih _ _ k hk with h | ⟨p, hp, hpk⟩
      · exact Or.inl h
      · exact Or.inr ⟨p, List.mem_cons_of_mem _ hp, hpk⟩
    | value r =>
      by_cases hr : pyTruthy r = true
      · simp only [summariesGenLoop, hgen, if_pos hr] at hk
        rcases ih _ _ k hk with h | ⟨p, hp, hpk⟩
        · rcases mem_keys_insert _ _ _ _ h with h | h
          · exact Or.inr ⟨(i, ch), List.mem_cons_self _ _, h⟩
          · exact Or.inl h
        · exact Or.inr ⟨p, List.mem_cons_of_mem _ hp, hpk⟩
      · simp only [summariesGenLoop, hgen, if_neg hr] at hk
        rcases ih _ _ k hk with h | ⟨p, hp, hpk⟩
        · exact Or.inl h
        · exact Or.inr ⟨p, List.mem_cons_of_mem _ hp, hpk⟩

theorem chaptersToGenerate_spec {σ : Type} (chapters : List Chapter)
    (summaries : Dict Nat σ) :
    ∀ ch ∈ chaptersToGenerate chapters summaries,
      ch ∈ chapters ∧ ∃ i, Dict.get? summaries (ch.order.getD i) = none ∧
        (i, ch) ∈ enumFrom 1 chapters := by
  intro ch hch
  rcases List.mem_map.1 hch with ⟨p, hp, hpch⟩
  have hmem : p ∈ enumFrom 1 chapters := List.mem_of_mem_filter hp
  have hcond : (Dict.get? summaries (p.2.order.getD p.1)).isNone = true :=
    (List.mem_filter.1 hp).2
  subst hpch
  refine ⟨enumFrom_mem_snd 1 chapters p hmem, p.1, ?_, hmem⟩
  exact Option.isNone_iff_eq_none.1 hcond

/-! ## JSON extraction (`llm_service.py` `_try_parse_json`)

The embedding needs executable models of `json.loads` (strict JSON with
Python's default `NaN`/`Infinity` constants), of the three regex searches, of
the quote-repair `re.sub`, of `ast.literal_eval` (on the literal subset the
extractor can meet: strings with either quote kind, numbers, booleans,
`None`, lists, dicts with string keys), and of the single-to-double-quote
replacement.  Parsers run on `List Char` with an explicit fuel that strictly
exceeds the input length, so fuel exhaustion is unreachable: every recursive
step first consumes at least one input character. -/

/-- A parsed JSON / Python-literal structure.  Numeric literals are kept as
validated source text, which is faithful for the equality tests the claims
need. -/
inductive JVal where
  | jnull : JVal
  | jbool : Bool → JVal
  | jnum : String → JVal
  | jstr : String → JVal
  | jarr : List JVal → JVal
  | jobj : List (String × JVal) → JVal

/-- JSON whitespace (`json.decoder` skips exactly space, tab, newline,
carriage return). -/
def isJsonWs (c : Char) : Bool :=
  c = ' ' || c = '\t' || c = '\n' || c = '\r'

/-- Drop leading JSON whitespace. -/
def skipWs : List Char → List Char
  | [] => []
  | c :: cs => if isJsonWs c then skipWs cs else c :: cs

/-- The single-quote character, `\x27`. -/
def singleQuote : Char := Char.ofNat 39

/-- Hexadecimal digit value. -/
def hexVal (c : Char) : Option Nat :=
  if '0' ≤ c && c ≤ '9' then some (c.toNat - 48)
  else if 'a' ≤ c && c ≤ 'f' then some (c.toNat - 87)
  else if 'A' ≤ c && c ≤ 'F' then some (c.toNat - 70)
  else none

/-- Body of a strict JSON string after the opening quote: standard escapes,
`\uXXXX`, raw control characters rejected (Python `strict=True`). -/
def parseStringBody (fuel : Nat) (acc : List Char) (cs : List Char) :
    Option (String × List Char) :=
  match fuel, cs with
  | 0, _ => none
  | _, [] => none
  | fuel + 1, c :: rest =>
    if c = '"' then some (String.mk acc.reverse, rest)
    else if c = '\\' then
      match rest with
      | [] => none
      | e :: rest2 =>
        if e = '"' then parseStringBody fuel ('"' :: acc) rest2
        else if e = '\\' then parseStringBody fuel ('\\' :: acc) rest2
        else if e = '/' then parseStringBody fuel ('/' :: acc) rest2
        else if e = 'b' then parseStringBody fuel (Char.ofNat 8 :: acc) rest2
        else if e = 'f' then parseStringBody fuel (Char.ofNat 12 :: acc) rest2
        else if e = 'n' then parseStringBody fuel ('\n' :: acc) rest2
        else if e = 'r' then parseStringBody fuel ('\r' :: acc) rest2
        else if e = 't' then parseStringBody fuel ('\t' :: acc) rest2
        else if e = 'u' then
          match rest2 with
          | h1 :: h2 :: h3 :: h4 :: rest3 =>
            match hexVal h1, hexVal h2, hexVal h3, hexVal h4 with
            | some a, some b, some c, some d =>
              parseStringBody fuel (Char.ofNat (((a * 16 + b) * 16 + c) * 16 + d) :: acc) rest3
            | _, _, _, _ => none
          | _ => none
        else none
    else if c.toNat < 32 then none
    else parseStringBody fuel (c :: acc) rest

/-- Leading decimal digits. -/
def takeDigits (cs : List Char) : List Char × List Char :=
  (cs.takeWhile (fun c => '0' ≤ c && c ≤ '9'), cs.dropWhile (fun c => '0' ≤ c && c ≤ '9'))

/-- A JSON number literal: `-? (0 | [1-9][0-9]*) (.digits)? ([eE][+-]?digits)?`,
returned as source text. -/
def parseNumberLit (cs : List Char) : Option (String × List Char) :=
  let (neg, cs1) :=
    match cs with
    | '-' :: rest => (['-'], rest)
    | _ => (([] : List Char), cs)
  match cs1 with
  | [] => none
  | c :: rest =>
    if !('0' ≤ c && c ≤ '9') then none
    else
      let (intPart, cs2) :=
        if c = '0' then (['0'], rest)
        else
          let (ds, r) := takeDigits rest
          (c :: ds, r)
      let (fracPart, cs3) :=
        match cs2 with
        | '.' :: r =>
          let (ds, r2) := takeDigits r
          if ds.isEmpty then (([] : List Char), cs2) else ('.' :: ds, r2)
        | _ => (([] : List Char), cs2)
      let (expPart, cs4) :=
        match cs3 with
        | e :: r =>
          if e = 'e' || e = 'E' then
            let (sign, r2) :=
              match r with
              | s :: r3 => if s = '+' || s = '-' then ([s], r3) else (([] : List Char), r)
              | [] => (([] : List Char), r)
            let (ds, r4) := takeDigits r2
            if ds.isEmpty then (([] : List Char), cs3) else (e :: (sign ++ ds), r4)
          else (([] : List Char), cs3)
        | [] => (([] : List Char), cs3)
      -- a fraction or exponent marker that failed to parse poisons the whole
      -- literal only at the caller (trailing-input check); the literal itself
      -- is the validated prefix, as in `json.scanner`
      some (String.mk (neg ++ intPart ++ fracPart ++ expPart), cs4)

mutual

/-- A strict JSON value, Python `json.loads` grammar (with the default
`NaN` / `Infinity` / `-Infinity` constants); skips leading whitespace. -/
def parseValue : Nat → List Char → Option (JVal × List Char)
  | 0, _ => none
  | fuel + 1, cs =>
    match skipWs cs with
    | [] => none
    | '{' :: rest =>
      match skipWs rest with
      | '}' :: rest2 => some (.jobj [], rest2)
      | rest2 =>
        match parseMembers fuel rest2 with
        | some (ms, cs2) => some (.jobj ms, cs2)
        | none => none
    | '[' :: rest =>
      match skipWs rest with
      | ']' :: rest2 => some (.jarr [], rest2)
      | rest2 =>
        match parseElements fuel rest2 with
        | some (vs, cs2) => some (.jarr vs, cs2)
        | none => none
    | '"' :: rest =>
      match parseStringBody (rest.length + 1) [] rest with
      | some (s, cs2) => some (.jstr s, cs2)
      | none => none
    | 't' :: 'r' :: 'u' :: 'e' :: rest => some (.jbool true, rest)
    | 'f' :: 'a' :: 'l' :: 's' :: 'e' :: rest => some (.jbool false, rest)
    | 'n' :: 'u' :: 'l' :: 'l' :: rest => some (.jnull, rest)
    | 'N' :: 'a' :: 'N' :: rest => some (.jnum "NaN", rest)
    | 'I' :: 'n' :: 'f' :: 'i' :: 'n' :: 'i' :: 't' :: 'y' :: rest =>
      some (.jnum "Infinity", rest)
    | '-' :: 'I' :: 'n' :: 'f' :: 'i' :: 'n' :: 'i' :: 't' :: 'y' :: rest =>
      some (.jnum "-Infinity", rest)
    | cs2 =>
      match parseNumberLit cs2 with
      | some (lit, rest) => some (.jnum lit, rest)
      | none => none

/-- Members of a JSON object after the opening brace (and not `}`):
`"k": v (, "k": v)*` followed by the closing brace. -/
def parseMembers : Nat → List Char → Option (List (String × JVal) × List Char)
  | 0, _ => none
  | fuel + 1, cs =>
    match cs with
    | '"' :: rest =>
      match parseStringBody (rest.length + 1) [] rest with
      | none => none
      | some (k, cs1) =>
        match skipWs cs1 with
        | ':' :: cs2 =>
          match parseValue fuel cs2 with
          | none => none
          | some (v, cs3) =>
            match skipWs cs3 with
            | ',' :: cs4 =>
              match parseMembers fuel (skipWs cs4) with
              | some (ms, cs5) => some ((k, v) :: ms, cs5)
              | none => none
            | '}' :: cs4 => some ([(k, v)], cs4)
            | _ => none
        | _ => none
    | _ => none

/-- Elements of a JSON array after the opening bracket (and not `]`):
`v (, v)*` followed by the closing bracket. -/
def parseElements : Nat → List Char → Option (List JVal × List Char)
  | 0, _ => none
  | fuel + 1, cs =>
    match parseValue fuel cs with
    | none => none
    | some (v, cs1) =>
      match skipWs cs1 with
      | ',' :: cs2 =>
        match parseElements fuel cs2 with
        | some (vs, cs3) => some (v :: vs, cs3)
        | none => none
      | ']' :: cs2 => some ([v], cs2)
      | _ => none

end

/-- Python `json.loads` on a character list: parse one value, then require
only whitespace to remain. -/
def jsonLoadsL (cs : List Char) : Option JVal :=
  match parseValue (cs.length + 2) cs with
  | some (v, rest) => if (skipWs rest).isEmpty then some v else none
  | none => none

/-- Python `json.loads`. -/
def jsonLoads (s : String) : Option JVal := jsonLoadsL s.toList

/-- The backtick character, `\x60`. -/
def backtick : Char := Char.ofNat 96

/-- A triple-backtick fence marker. -/
def fenceMarker : List Char := [backtick, backtick, backtick]

/-- The literal `\x60\x60\x60json`. -/
def fenceMarkerJson : List Char := fenceMarker ++ ['j', 's', 'o', 'n']

/-- Consume an exact literal prefix. -/
def dropLiteral : List Char → List Char → Option (List Char)
  | [], cs => some cs
  | _ :: _, [] => none
  | t :: ts, c :: cs => if c = t then dropLiteral ts cs else none

/-- `re` whitespace class `\s` (ASCII part): space, tab, newline, carriage
return, form feed, vertical tab. -/
def isReWs (c : Char) : Bool :=
  c = ' ' || c = '\t' || c = '\n' || c = '\r' || c = Char.ofNat 12 || c = Char.ofNat 11

/-- Drop leading `\s*`. -/
def skipReWs : List Char → List Char
  | [] => []
  | c :: cs => if isReWs c then skipReWs cs else c :: cs

/-- Does `\s*` followed by a triple-backtick fence match here? -/
def closeFollows (cs : List Char) : Bool :=
  match dropLiteral fenceMarker (skipReWs cs) with
  | some _ => true
  | none => false

/-- The lazy group `(\{.*?\})` (DOTALL) followed by `\s*` and a fence: scan
for the first `}` whose suffix matches, returning the group inclusive of both
braces.  `acc` holds the reversed group so far. -/
def lazyClose (fuel : Nat) (acc : List Char) (cs : List Char) : Option (List Char) :=
  match fuel, cs with
  | 0, _ => none
  | _, [] => none
  | f + 1, c :: rest =>
    if c = '}' && closeFollows rest then some (c :: acc).reverse
    else lazyClose f (c :: acc) rest

/-- Attempt the fenced-block pattern at this exact position: the tag literal,
`\s*`, then the lazy brace group with its closing fence. -/
def matchFencedAt (tag : List Char) (cs : List Char) : Option (List Char) :=
  match dropLiteral tag cs with
  | none => none
  | some rest =>
    match skipReWs rest with
    | '{' :: rest2 => lazyClose (rest2.length + 1) ['{'] rest2
    | _ => none

/-- `re.search` of the fenced-block pattern: try every start position from
the left, returning the first (leftmost) match's brace group. -/
def searchFenced (tag : List Char) : Nat → List Char → Option (List Char)
  | 0, _ => none
  | f + 1, cs =>
    match matchFencedAt tag cs with
    | some r => some r
    | none =>
      match cs with
      | [] => none
      | _ :: tl => searchFenced tag f tl

/-- The prefix of `cs` up to and including its last `}`. -/
def takeToLastClose (cs : List Char) : Option (List Char) :=
  match cs.reverse.dropWhile (fun c => !(c = '}')) with
  | '}' :: r3 => some ('}' :: r3).reverse
  | _ => none

/-- `re.search(r"\{.*\}", text, re.DOTALL)`: greedy span from the first `{`
to the last `}` after it. -/
def braceSpan (cs : List Char) : Option (List Char) :=
  match cs.dropWhile (fun c => !(c = '{')) with
  | '{' :: rest =>
    match takeToLastClose rest with
    | some pre => some ('{' :: pre)
    | none => none
  | _ => none

/-- `value.replace('"', '\\"')` of the quote-repair replacement. -/
def escapeQuotes : List Char → List Char
  | [] => []
  | c :: cs => if c = '"' then '\\' :: '"' :: escapeQuotes cs else c :: escapeQuotes cs

/-- Split at the last `"` of `cs`: the characters before it and those after
it.  `none` when `cs` has no quote. -/
def splitAtLastQuote (cs : List Char) : Option (List Char × List Char) :=
  match cs.reverse.dropWhile (fun c => !(c = '"')) with
  | '"' :: r3 => some (r3.reverse, (cs.reverse.takeWhile (fun c => !(c = '"'))).reverse)
  | _ => none

/-- Attempt the quote-repair pattern
`"([^"]+)":\s*"([^"]*(?:"[^"]*)*)"` at this exact position: key, colon,
`\s*`, opening quote, then the greedy value group, whose closing quote is the
last quote of the remaining text.  Returns (key, value, text after the
match). -/
def matchQuotePat (cs : List Char) : Option (List Char × List Char × List Char) :=
  match cs with
  | '"' :: cs1 =>
    let key := cs1.takeWhile (fun c => !(c = '"'))
    if key.isEmpty then none
    else
      match cs1.drop key.length with
      | '"' :: ':' :: cs3 =>
        match skipReWs cs3 with
        | '"' :: cs4 =>
          match splitAtLastQuote cs4 with
          | some (value, after) => some (key, value, after)
          | none => none
        | _ => none
      | _ => none
  | _ => none

/-- `re.sub` with the quote-repair pattern: left-to-right, non-overlapping;
each match is replaced by `"key": "escaped_value"`. -/
def quoteFixSub (fuel : Nat) (cs : List Char) : List Char :=
  match fuel, cs with
  | 0, _ => cs
  | _, [] => []
  | f + 1, c :: rest =>
    match matchQuotePat (c :: rest) with
    | some (key, value, after) =>
      ('"' :: key) ++ ('"' :: ':' :: ' ' :: '"' :: escapeQuotes value) ++
        ('"' :: quoteFixSub f after)
    | none => c :: quoteFixSub f rest

/-- `llm_service.py` `fix_json_quotes_inline` (defined inside
`_try_parse_json`): direct parse, else quote-repair then parse, else `None`.
It catches all its parse errors, so it returns normally on every input. -/
def fixJsonQuotesInline (cs : List Char) : Option JVal :=
  match jsonLoadsL cs with
  | some v => some v
  | none => jsonLoadsL (quoteFixSub (cs.length + 1) cs)

/-- Body of a Python single-line string literal with quote character `q`:
the common escapes are decoded, an unrecognized escape keeps the backslash
(CPython behaviour), a raw newline is a syntax error. -/
def parsePyStringBody (fuel : Nat) (q : Char) (acc : List Char) (cs : List Char) :
    Option (String × List Char) :=
  match fuel, cs with
  | 0, _ => none
  | _, [] => none
  | fuel + 1, c :: rest =>
    if c = q then some (String.mk acc.reverse, rest)
    else if c = '\\' then
      match rest with
      | [] => none
      | e :: rest2 =>
        if e = '\\' then parsePyStringBody fuel q ('\\' :: acc) rest2
        else if e = singleQuote then parsePyStringBody fuel q (singleQuote :: acc) rest2
        else if e = '"' then parsePyStringBody fuel q ('"' :: acc) rest2
        else if e = 'n' then parsePyStringBody fuel q ('\n' :: acc) rest2
        else if e = 't' then parsePyStringBody fuel q ('\t' :: acc) rest2
        else if e = 'r' then parsePyStringBody fuel q ('\r' :: acc) rest2
        else if e = 'b' then parsePyStringBody fuel q (Char.ofNat 8 :: acc) rest2
        else if e = 'f' then parsePyStringBody fuel q (Char.ofNat 12 :: acc) rest2
        else if e = '0' then parsePyStringBody fuel q (Char.ofNat 0 :: acc) rest2
        else parsePyStringBody fuel q (e :: '\\' :: acc) rest2
    else if c = '\n' then none
    else parsePyStringBody fuel q (c :: acc) rest

/-- A Python numeric literal `[+-]? digits (.digits)? ([eE][+-]?digits)?`,
kept as source text. -/
def parsePyNumberLit (cs : List Char) : Option (String × List Char) :=
  let (sign, cs1) :=
    match cs with
    | '-' :: rest => (['-'], rest)
    | '+' :: rest => (['+'], rest)
    | _ => (([] : List Char), cs)
  let (intPart, cs2) := takeDigits cs1
  if intPart.isEmpty then none
  else
    let (fracPart, cs3) :=
      match cs2 with
      | '.' :: r =>
        let (ds, r2) := takeDigits r
        ('.' :: ds, r2)
      | _ => (([] : List Char), cs2)
    let (expPart, cs4) :=
      match cs3 with
      | e :: r =>
        if e = 'e' || e = 'E' then
          let (esign, r2) :=
            match r with
            | s :: r3 => if s = '+' || s = '-' then ([s], r3) else (([] : List Char), r)
            | [] => (([] : List Char), r)
          let (ds, r4) := takeDigits r2
          if ds.isEmpty then (([] : List Char), cs3) else (e :: (esign ++ ds), r4)
        else (([] : List Char), cs3)
      | [] => (([] : List Char), cs3)
    some (String.mk (sign ++ intPart ++ fracPart ++ expPart), cs4)

mutual

/-- A Python literal value on the subset `ast.literal_eval` can meet here:
strings (either quote), numbers, `True`/`False`/`None`, lists, tuples, dicts
with string-literal keys.  Trailing commas are legal. -/
def pyValue : Nat → List Char → Option (JVal × List Char)
  | 0, _ => none
  | fuel + 1, cs =>
    match skipWs cs with
    | [] => none
    | '{' :: rest =>
      match skipWs rest with
      | '}' :: rest2 => some (.jobj [], rest2)
      | rest2 =>
        match pyMembers fuel rest2 with
        | some (ms, cs2) => some (.jobj ms, cs2)
        | none => none
    | '[' :: rest =>
      match skipWs rest with
      | ']' :: rest2 => some (.jarr [], rest2)
      | rest2 =>
        match pyElements fuel (']') rest2 with
        | some (vs, cs2) => some (.jarr vs, cs2)
        | none => none
    | '(' :: rest =>
      match skipWs rest with
      | ')' :: rest2 => some (.jarr [], rest2)
      | rest2 =>
        match pyElements fuel (')') rest2 with
        | some (vs, cs2) => some (.jarr vs, cs2)
        | none => none
    | 'T' :: 'r' :: 'u' :: 'e' :: rest => some (.jbool true, rest)
    | 'F' :: 'a' :: 'l' :: 's' :: 'e' :: rest => some (.jbool false, rest)
    | 'N' :: 'o' :: 'n' :: 'e' :: rest => some (.jnull, rest)
    | c :: rest =>
      if c = '"' || c = singleQuote then
        match parsePyStringBody (rest.length + 1) c [] rest with
        | some (s, cs2) => some (.jstr s, cs2)
        | none => none
      else
        match parsePyNumberLit (c :: rest) with
        | some (lit, cs2) => some (.jnum lit, cs2)
        | none => none

/-- Members of a Python dict literal after the opening brace (and not `}`):
string-literal keys, trailing comma allowed. -/
def pyMembers : Nat → List Char → Option (List (String × JVal) × List Char)
  | 0, _ => none
  | fuel + 1, cs =>
    match cs with
    | c :: rest =>
      if !(c = '"' || c = singleQuote) then none
      else
        match parsePyStringBody (rest.length + 1) c [] rest with
        | none => none
        | some (k, cs1) =>
          match skipWs cs1 with
          | ':' :: cs2 =>
            match pyValue fuel cs2 with
            | none => none
            | some (v, cs3) =>
              match skipWs cs3 with
              | ',' :: cs4 =>
                match skipWs cs4 with
                | '}' :: cs5 => some ([(k, v)], cs5)
                | cs5 =>
                  match pyMembers fuel cs5 with
                  | some (ms, cs6) => some ((k, v) :: ms, cs6)
                  | none => none
              | '}' :: cs4 => some ([(k, v)], cs4)
              | _ => none
          | _ => none
    | [] => none

/-- Elements of a Python list / tuple literal after the opening bracket (and
not the closer): trailing comma allowed. -/
def pyElements : Nat → Char → List Char → Option (List JVal × List Char)
  | 0, _, _ => none
  | fuel + 1, closer, cs =>
    match pyValue fuel cs with
    | none => none
    | some (v, cs1) =>
      match skipWs cs1 with
      | ',' :: cs2 =>
        match skipWs cs2 with
        | c :: cs3 =>
          if c = closer then some ([v], cs3)
          else
            match pyElements fuel closer (c :: cs3) with
            | some (vs, cs4) => some (v :: vs, cs4)
            | none => none
        | [] => none
      | c :: cs2 =>
        if c = closer then some ([v], cs2)
        else none
      | [] => none

end

/-- Python `ast.literal_eval` (on the modelled literal subset): parse one
literal expression, then require only whitespace to remain. -/
def pyLiteralEvalL (cs : List Char) : Option JVal :=
  match pyValue (cs.length + 2) cs with
  | some (v, rest) => if (skipWs rest).isEmpty then some v else none
  | none => none

/-- `response_text.replace("'", '"')` of attempt 7. -/
def replaceSingleQuotes (cs : List Char) : List Char :=
  cs.map (fun c => if c = singleQuote then '"' else c)

/-- `llm_service.py` `_try_parse_json`, translated clause by clause:
attempt 1 direct parse; attempt 2 the `json`-tagged fenced block; attempt 3
the untagged fenced block; attempt 4 the greedy brace span; attempt 5
`return fix_json_quotes_inline(response_text)` — this `return` is
unconditional (the helper returns `None` on failure instead of raising, so
the surrounding `except: pass` never fires), hence the source's attempts 6
(`ast.literal_eval`) and 7 (single-to-double-quote replacement) are
unreachable and the chain ends here. -/
def tryParseJsonL (cs : List Char) : Option JVal :=
  match jsonLoadsL cs with
  | some v => some v
  | none =>
    match (searchFenced fenceMarkerJson (cs.length + 1) cs).bind jsonLoadsL with
    | some v => some v
    | none =>
      match (searchFenced fenceMarker (cs.length + 1) cs).bind jsonLoadsL with
      | some v => some v
      | none =>
        match (braceSpan cs).bind jsonLoadsL with
        | some v => some v
        | none => fixJsonQuotesInline cs

/-- `_try_parse_json` on a string. -/
def tryParseJson (s : String) : Option JVal := tryParseJsonL s.toList

/-- The extraction chain as the spec describes it: the same seven strategies
with each one attempted only on failure of the previous one — in particular
strategy 5 falls through to strategy 6 (`ast.literal_eval`) and strategy 7
(single-to-double-quote replacement) instead of returning early. -/
def specTryParseJsonL (cs : List Char) : Option JVal :=
  match jsonLoadsL cs with
  | some v => some v
  | none =>
    match (searchFenced fenceMarkerJson (cs.length + 1) cs).bind jsonLoadsL with
    | some v => some v
    | none =>
      match (searchFenced fenceMarker (cs.length + 1) cs).bind jsonLoadsL with
      | some v => some v
      | none =>
        match (braceSpan cs).bind jsonLoadsL with
        | some v => some v
        | none =>
          match fixJsonQuotesInline cs with
          | some v => some v
          | none =>
            match pyLiteralEvalL cs with
            | some v => some v
            | none => jsonLoadsL (replaceSingleQuotes cs)

/-- The spec's extraction chain on a string. -/
def specTryParseJson (s : String) : Option JVal := specTryParseJsonL s.toList

/-! ## JSON-typed requests (`llm_service.py` `_make_json_request` /
`_make_json_request_async`)

`respond k p` is the oracle for the text the k-th underlying request (sync
`_make_request` / async `_make_async_request`) returns for prompt `p`
(`none` models its soft failure). -/

/-- The amended prompt of a repair reissue: the fixed demand-pure-JSON prefix
(`"Canon Bible"` when `"canon" in task_name.lower()`, `"JSON数据"`
otherwise) prepended to the previous prompt. -/
def amendedPrompt (isCanonTask : Bool) (prompt : String) : String :=
  "请重新生成" ++ (if isCanonTask then "Canon Bible" else "JSON数据") ++
    "，严格按照JSON格式返回。不要包含任何解释文字，只返回纯JSON：\n\n" ++ prompt

/-- The `for attempt in range(3)` loop of `_make_json_request`, with
`remaining = 3 - attempt` iterations left.  Returns the parsed structure (or
`none`) together with the list of prompts actually issued, in order. -/
def makeJsonRequestGo (respond : Nat → String → Option String) (isCanonTask : Bool) :
    Nat → Nat → String → List String → Option JVal × List String
  | 0, _, _, used => (none, used)
  | remaining + 1, attempt, prompt, used =>
    match respond attempt prompt with
    | none => (none, used ++ [prompt])
    | some text =>
      match tryParseJson text with
      | some v => (some v, used ++ [prompt])
      | none =>
        if attempt < 2 then
          makeJsonRequestGo respond isCanonTask remaining (attempt + 1)
            (amendedPrompt isCanonTask prompt) (used ++ [prompt])
        else (none, used ++ [prompt])

/-- `llm_service.py` `_make_json_request`: up to 3 underlying text requests;
an underlying `None` returns `None` at once; a parse success returns the
structure; a parse failure amends the prompt and retries while `attempt < 2`. -/
def makeJsonRequest (respond : Nat → String → Option String) (isCanonTask : Bool)
    (prompt : String) : Option JVal × List String :=
  makeJsonRequestGo respond isCanonTask 3 0 prompt []

/-- The async loop of `_make_json_request_async`: identical decision logic;
additionally emits a repair / give-up message through the progress callback
on every parse failure.  Returns (result, prompts issued, messages emitted). -/
def makeJsonRequestAsyncGo (respond : Nat → String → Option String)
    (isCanonTask hasCallback : Bool) (taskName : String) :
    Nat → Nat → String → List String → List String →
    Option JVal × List String × List String
  | 0, _, _, used, msgs => (none, used, msgs)
  | remaining + 1, attempt, prompt, used, msgs =>
    match respond attempt prompt with
    | none => (none, used ++ [prompt], msgs)
    | some text =>
      match tryParseJson text with
      | some v => (some v, used ++ [prompt], msgs)
      | none =>
        if attempt < 2 then
          makeJsonRequestAsyncGo respond isCanonTask hasCallback taskName remaining
            (attempt + 1) (amendedPrompt isCanonTask prompt) (used ++ [prompt])
            (msgs ++ (if hasCallback
              then ["[" ++ taskName ++ "] JSON解析失败，尝试修复 (第" ++
                toString (attempt + 1) ++ "次)"]
              else []))
        else
          (none, used ++ [prompt],
            msgs ++ (if hasCallback
              then ["[" ++ taskName ++ "] 多次尝试后仍无法解析JSON格式"]
              else []))

/-- `llm_service.py` `_make_json_request_async`. -/
def makeJsonRequestAsync (respond : Nat → String → Option String)
    (isCanonTask hasCallback : Bool) (taskName : String) (prompt : String) :
    Option JVal × List String × List String :=
  makeJsonRequestAsyncGo respond isCanonTask hasCallback taskName 3 0 prompt [] []

/-!
# Theorems settling the claims
-/

/-- Claim C2, code-bug demonstration.  On the input `{'a': 1}` the first four
strategies of `_try_parse_json` fail, strategy 5's helper returns `None`
without raising, and the function returns that `None` directly — even though
the source's own strategy 6 (`ast.literal_eval`) parses this input, and the
spec's seven-strategy chain (each strategy attempted on failure of the
previous) would therefore return `{"a": 1}`.  Strategies 6 and 7 of the
source are unreachable code. -/
theorem tryParseJson_returns_early_of_quote_fix :
    tryParseJson "\x7b\x27a\x27: 1\x7d" = none ∧
    pyLiteralEvalL ("\x7b\x27a\x27: 1\x7d".toList) = some (.jobj [("a", .jnum "1")]) ∧
    specTryParseJson "\x7b\x27a\x27: 1\x7d" = some (.jobj [("a", .jnum "1")]) :=
  ⟨rfl, rfl, rfl⟩

/-- Claim C3: with retry enabled, `_make_request` and `_make_async_request`
map both an exhausted-retry failure (`RetryError`) and any non-retryable
error of the underlying call to the soft-failure result `None`; the
embedding is a total function, so no exception reaches the caller. -/
theorem makeRequest_soft_failure :
    ∀ (available : Bool) (n : Nat) (e m taskName : String) (hasCallback : Bool),
      makeRequest available (.retryExhausted n e) = none ∧
      makeRequest available (.nonRetryable m) = none ∧
      (makeAsyncRequest available (.retryExhausted n e) taskName hasCallback).1 = none ∧
      (makeAsyncRequest available (.nonRetryable m) taskName hasCallback).1 = none := by
  intro available n e m taskName hasCallback
  cases available <;> exact ⟨rfl, rfl, rfl, rfl⟩

/-- Claim C9: `get_retry_config` after `set_retry_config(c)` returns exactly
the retries / delay / backoff values supplied in `c`, and after
`reset_retry_config()` it returns the factory defaults 3 / 1.0 / 2.0. -/
theorem retry_config_set_get_reset :
    ∀ (st : RetryConfigState) (r : Int) (d b : ℚ),
      get_retry_config (set_retry_config st ⟨some r, some d, some b⟩) = (r, d, b) ∧
      get_retry_config (reset_retry_config st) = (3, 1, 2) := by
  intro st r d b
  exact ⟨rfl, rfl⟩

/-- Claim C10: the task creation of `generate_all_summaries_async` binds
`user_prompt` positionally to the `canon` parameter of
`generate_chapter_summary_async` and `progress_callback` positionally to its
`user_prompt` parameter, leaving `progress_callback` at its default `None`;
consequently no callback is forwarded into the summary request and the user
prompt is applied as canon, while the user-prompt slot carries the callback
object (or `""` when no callback was supplied). -/
theorem summaries_task_binding_shifts_arguments :
    ∀ (chapter : Chapter) (i : Nat) (contextInfo userPrompt : String) (cb : PyArg),
      (mkSummaryTaskCall chapter i contextInfo userPrompt cb).canon = .str userPrompt ∧
      (mkSummaryTaskCall chapter i contextInfo userPrompt cb).userPrompt = cb ∧
      (mkSummaryTaskCall chapter i contextInfo userPrompt cb).progressCallback = .noneV ∧
      (generateChapterSummaryAsyncRequest
        (mkSummaryTaskCall chapter i contextInfo userPrompt cb)).callbackForwarded = .noneV ∧
      (generateChapterSummaryAsyncRequest
        (mkSummaryTaskCall chapter i contextInfo userPrompt cb)).canonUsed = .str userPrompt ∧
      (generateChapterSummaryAsyncRequest
        (mkSummaryTaskCall chapter i contextInfo userPrompt cb)).userPromptUsed
        = (if cb = .noneV then .str "" else cb) := by
  intro chapter i contextInfo userPrompt cb
  exact ⟨rfl, rfl, rfl, rfl, rfl, rfl⟩

/-- Claim C7, counterexample: the delay is not monotonically non-decreasing
for every retry configuration — with `base_delay = 1`, `max_delay = 30`,
`backoff_multiplier = 1/2` and jitter disabled, the delay before the second
try (1/2) is strictly below the delay before the first (1). -/
theorem backoff_not_monotone_for_fractional_multiplier :
    backoffDelay ⟨1, 30, 1/2, false, 1/10⟩ 1 0
      < backoffDelay ⟨1, 30, 1/2, false, 1/10⟩ 0 0 := by
  norm_num [backoffDelay]

/-- Claim C7, amended: for the spec-modelled backoff delay
`min(max_delay, base_delay * multiplier^n) (+ jitter sample)`, under
`base_delay ≥ 0`, `multiplier ≥ 1` and `jitter_range ≥ 0` the delay is
monotonically non-decreasing in `n` (holding the jitter sample fixed), never
exceeds `max_delay + jitter_range` for any sample in `[0, jitter_range]`,
and the configuration base 1.0 / max 30.0 / multiplier 2.0 / no jitter
yields delays 1, 2, 4, 8 for attempts 0, 1, 2, 3. -/
theorem backoff_delay_properties (cfg : BackoffConfig) (n : Nat) (j j' : ℚ)
    (hbase : 0 ≤ cfg.baseDelay) (hmult : 1 ≤ cfg.backoffMultiplier)
    (_hj0 : 0 ≤ j) (hjr : j ≤ cfg.jitterRange) (hjr0 : 0 ≤ cfg.jitterRange) :
    (backoffDelay cfg n j' ≤ backoffDelay cfg (n + 1) j') ∧
    (backoffDelay cfg n j ≤ cfg.maxDelay + cfg.jitterRange) ∧
    (backoffDelay ⟨1, 30, 2, false, 1/10⟩ 0 0 = 1 ∧
      backoffDelay ⟨1, 30, 2, false, 1/10⟩ 1 0 = 2 ∧
      backoffDelay ⟨1, 30, 2, false, 1/10⟩ 2 0 = 4 ∧
      backoffDelay ⟨1, 30, 2, false, 1/10⟩ 3 0 = 8) := by
  refine ⟨?_, ?_, by norm_num [backoffDelay], by norm_num [backoffDelay],
    by norm_num [backoffDelay], by norm_num [backoffDelay]⟩
  · unfold backoffDelay
    have hpow : cfg.backoffMultiplier ^ n ≤ cfg.backoffMultiplier ^ (n + 1) :=
      pow_le_pow_right₀ hmult (Nat.le_succ n)
    have hcore : cfg.baseDelay * cfg.backoffMultiplier ^ n
        ≤ cfg.baseDelay * cfg.backoffMultiplier ^ (n + 1) :=
      mul_le_mul_of_nonneg_left hpow hbase
    exact add_le_add_right (min_le_min (le_refl cfg.maxDelay) hcore) _
  · unfold backoffDelay
    have hmin : min cfg.maxDelay (cfg.baseDelay * cfg.backoffMultiplier ^ n)
        ≤ cfg.maxDelay := min_le_left _ _
    by_cases hj : cfg.jitterEnabled = true
    · rw [if_pos hj]
      exact add_le_add hmin hjr
    · rw [if_neg hj]
      have := add_le_add hmin hjr0
      simpa using this

/-- Claim C7, witness: the amended theorem applied at the default
configuration with jitter enabled, attempt 0 and the sample 1/10. -/
theorem backoff_delay_properties_witness :
    backoffDelay ⟨1, 30, 2, true, 1/10⟩ 0 (1/10) ≤ 30 + 1/10 :=
  (backoff_delay_properties ⟨1, 30, 2, true, 1/10⟩ 0 (1/10) 0
    (by norm_num) (by norm_num) (by norm_num) (by norm_num) (by norm_num)).2.1

/-- A truthy optional string is not `none`. -/
theorem pyTruthy_ne_none : ∀ o : Option String, pyTruthy o = true → o ≠ none := by
  intro o h
  cases o
  · simp [pyTruthy] at h
  · simp

/-- Closed form of the blocking pipeline: `none` on a falsy draft, the
refined content when refinement ran and succeeded, the draft otherwise. -/
theorem syncPipeline_eq (cfg : GenerationConfig)
    (draft critique refined : Option String) (confirm : Bool) :
    generateNovelChapterWithRefinement cfg draft critique refined confirm =
      (if pyTruthy draft = false then none
       else if refinementRanAndSucceeded cfg draft critique refined confirm = true
       then refined else draft) := by
  unfold generateNovelChapterWithRefinement refinementRanAndSucceeded
  by_cases hd : pyTruthy draft = true <;>
  by_cases he : cfg.enableRefinement = true <;>
  by_cases hc : pyTruthy critique = true <;>
  by_cases h1 : (cfg.refinementMode == "disabled") = true <;>
  by_cases h2 : cfg.refinementMode = "manual" <;>
  cases confirm <;>
  by_cases hr : pyTruthy refined = true <;>
  simp_all

/-- Closed form of the async pipeline. -/
theorem asyncPipeline_eq (cfg : GenerationConfig)
    (draft critique refined : Option String) :
    generateNovelChapterWithRefinementAsync cfg draft critique refined =
      (if pyTruthy draft = false then none
       else if refinementRanAndSucceededAsync cfg draft critique refined = true
       then refined else draft) := by
  unfold generateNovelChapterWithRefinementAsync refinementRanAndSucceededAsync
  by_cases hd : pyTruthy draft = true <;>
  by_cases he : cfg.enableRefinement = true <;>
  by_cases hc : pyTruthy critique = true <;>
  by_cases h1 : (cfg.refinementMode == "disabled") = true <;>
  by_cases hr : pyTruthy refined = true <;>
  simp_all

/-- Refinement ran and succeeded only with truthy refined content
(blocking). -/
theorem ranAndSucceeded_refined_truthy (cfg : GenerationConfig)
    (draft critique refined : Option String) (confirm : Bool)
    (h : refinementRanAndSucceeded cfg draft critique refined confirm = true) :
    pyTruthy refined = true := by
  unfold refinementRanAndSucceeded at h
  simp only [Bool.and_eq_true] at h
  exact h.2

/-- Refinement ran and succeeded only with truthy refined content (async). -/
theorem ranAndSucceededAsync_refined_truthy (cfg : GenerationConfig)
    (draft critique refined : Option String)
    (h : refinementRanAndSucceededAsync cfg draft critique refined = true) :
    pyTruthy refined = true := by
  unfold refinementRanAndSucceededAsync at h
  simp only [Bool.and_eq_true] at h
  exact h.2

/-- Claim C4: in both with-refinement pipelines, the result is `None` exactly
when drafting fails; a falsy critique (with a truthy draft and refinement
enabled) returns the draft unchanged — a truthy value, so the unit counts as
a success; and the final content is the refined version precisely when the
refinement step ran and succeeded, otherwise the draft (in particular a
failed refinement request falls back to the draft). -/
theorem refinement_pipeline_final_content :
    ∀ (cfg : GenerationConfig) (draft critique refined : Option String) (confirm : Bool),
      ((generateNovelChapterWithRefinement cfg draft critique refined confirm = none)
        ↔ pyTruthy draft = false) ∧
      ((generateNovelChapterWithRefinementAsync cfg draft critique refined = none)
        ↔ pyTruthy draft = false) ∧
      (pyTruthy draft = true → cfg.enableRefinement = true → pyTruthy critique = false →
        generateNovelChapterWithRefinement cfg draft critique refined confirm = draft ∧
        generateNovelChapterWithRefinementAsync cfg draft critique refined = draft) ∧
      (pyTruthy draft = true →
        generateNovelChapterWithRefinement cfg draft critique refined confirm =
          (if refinementRanAndSucceeded cfg draft critique refined confirm = true
            then refined else draft) ∧
        generateNovelChapterWithRefinementAsync cfg draft critique refined =
          (if refinementRanAndSucceededAsync cfg draft critique refined = true
            then refined else draft)) := by
  intro cfg draft critique refined confirm
  have hs := syncPipeline_eq cfg draft critique refined confirm
  have ha := asyncPipeline_eq cfg draft critique refined
  refine ⟨?_, ?_, ?_, ?_⟩
  · rw [hs]
    cases hd : pyTruthy draft
    · simp
    · simp only [Bool.true_eq_false, if_false]
      by_cases hran : refinementRanAndSucceeded cfg draft critique refined confirm = true
      · simp only [hran, if_true]
        have hne := pyTruthy_ne_none refined
          (ranAndSucceeded_refined_truthy cfg draft critique refined confirm hran)
        simp [hne]
      · simp only [hran, if_false]
        have hne := pyTruthy_ne_none draft hd
        simp [hne]
  · rw [ha]
    cases hd : pyTruthy draft
    · simp
    · simp only [Bool.true_eq_false, if_false]
      by_cases hran : refinementRanAndSucceededAsync cfg draft critique refined = true
      · simp only [hran, if_true]
        have hne := pyTruthy_ne_none refined
          (ranAndSucceededAsync_refined_truthy cfg draft critique refined hran)
        simp [hne]
      · simp only [hran, if_false]
        have hne := pyTruthy_ne_none draft hd
        simp [hne]
  · intro hd he hc
    have hran : refinementRanAndSucceeded cfg draft critique refined confirm = false := by
      unfold refinementRanAndSucceeded
      simp [hc]
    have hranA : refinementRanAndSucceededAsync cfg draft critique refined = false := by
      unfold refinementRanAndSucceededAsync
      simp [hc]
    rw [hs, ha, hd, hran, hranA]
    simp
  · intro hd
    rw [hs, ha, hd]
    simp

/-- Claim C4, witness: the theorem at a concrete input where the critique
step failed — the blocking pipeline returns the draft. -/
theorem refinement_pipeline_final_content_witness :
    generateNovelChapterWithRefinement ⟨true, "auto"⟩ (some "d") none (some "r") true
      = some "d" :=
  ((refinement_pipeline_final_content ⟨true, "auto"⟩ (some "d") none (some "r")
    true).2.2.1 (by decide) rfl (by decide)).1

/-- Claim C5, counterexample: in the suspendable pipeline with
`refinement_mode = 'manual'`, a successful critique leads straight to
refinement — no confirmation collaborator exists in the async code path, so
the returned content is the refined version, not the draft that a declined
confirmation would require. -/
theorem async_manual_mode_never_asks_confirmation :
    generateNovelChapterWithRefinementAsync ⟨true, "manual"⟩ (some "draft")
      (some "critique") (some "refined") = some "refined" ∧
    (some "refined" : Option String) ≠ some "draft" :=
  ⟨rfl, by decide⟩

/-- Claim C5, amended: after a successful critique (truthy draft, refinement
enabled, truthy critique), the blocking pipeline obeys the mode fully —
`disabled` returns the draft, `manual` asks the confirmation collaborator
and refines only if confirmed, `auto` always refines; the suspendable
pipeline obeys `disabled` but treats `manual` exactly like `auto`: it always
refines (falling back to the draft only if the refinement request fails),
never consulting the confirmation collaborator. -/
theorem refinement_mode_governs_entry :
    ∀ (cfg : GenerationConfig) (draft critique refined : Option String) (confirm : Bool),
      pyTruthy draft = true → cfg.enableRefinement = true → pyTruthy critique = true →
      ((cfg.refinementMode = "disabled" →
        generateNovelChapterWithRefinement cfg draft critique refined confirm = draft ∧
        generateNovelChapterWithRefinementAsync cfg draft critique refined = draft) ∧
      (cfg.refinementMode = "manual" →
        (confirm = false →
          generateNovelChapterWithRefinement cfg draft critique refined confirm = draft) ∧
        (confirm = true →
          generateNovelChapterWithRefinement cfg draft critique refined confirm =
            (if pyTruthy refined = true then refined else draft)) ∧
        generateNovelChapterWithRefinementAsync cfg draft critique refined =
          (if pyTruthy refined = true then refined else draft)) ∧
      (cfg.refinementMode = "auto" →
        generateNovelChapterWithRefinement cfg draft critique refined confirm =
          (if pyTruthy refined = true then refined else draft) ∧
        generateNovelChapterWithRefinementAsync cfg draft critique refined =
          (if pyTruthy refined = true then refined else draft))) := by
  intro cfg draft critique refined confirm hd he hc
  have hs := syncPipeline_eq cfg draft critique refined confirm
  have ha := asyncPipeline_eq cfg draft critique refined
  rw [hs, ha, hd]
  unfold refinementRanAndSucceeded refinementRanAndSucceededAsync
  refine ⟨?_, ?_, ?_⟩
  · intro hm
    rw [hm]
    simp [hd, he, hc]
  · intro hm
    rw [hm]
    refine ⟨?_, ?_, ?_⟩
    · intro hcf
      rw [hcf]
      simp [hd, he, hc, show (("manual" : String) == "disabled") = false from by decide,
        show (("manual" : String) == "manual") = true from by decide]
    · intro hcf
      rw [hcf]
      simp [hd, he, hc, show (("manual" : String) == "disabled") = false from by decide,
        show (("manual" : String) == "manual") = true from by decide]
    · simp [hd, he, hc, show (("manual" : String) == "disabled") = false from by decide]
  · intro hm
    rw [hm]
    simp [hd, he, hc, show (("auto" : String) == "disabled") = false from by decide,
      show (("auto" : String) == "manual") = false from by decide]

/-- Claim C5, witness: the amended theorem at a concrete input — in
`disabled` mode the blocking pipeline returns the draft even though critique
succeeded. -/
theorem refinement_mode_governs_entry_witness :
    generateNovelChapterWithRefinement ⟨true, "disabled"⟩ (some "d") (some "c")
      (some "r") true = some "d" :=
  ((refinement_mode_governs_entry ⟨true, "disabled"⟩ (some "d") (some "c") (some "r") true
    (by decide) rfl (by decide)).1 rfl).1

/-- Claim C8: `generate_all_summaries` selects for generation only chapters
whose key is absent from the stored summaries (given every chapter card
carries an `order`, as the caller guarantees after `chapter['order'] = i+1`),
and when it writes, the written mapping `{**summaries, **results}` preserves
every pre-existing entry unchanged. -/
theorem resume_preserves_existing_summaries
    (available confirmed : Bool) (chapters : List Chapter)
    (summaries : Dict Nat SummaryEntry) (gen : Nat → Chapter → TaskOutcome)
    (horder : ∀ ch ∈ chapters, ch.order ≠ none) :
    (∀ ch ∈ chaptersToGenerate chapters summaries,
        ∃ o, ch.order = some o ∧ Dict.get? summaries o = none) ∧
    (∀ out, generateAllSummariesWorkflow available confirmed chapters summaries gen
        = some out →
      ∀ k v, Dict.get? summaries k = some v → Dict.get? out k = some v) := by
  have hsel : ∀ ch ∈ chaptersToGenerate chapters summaries,
      ∃ o, ch.order = some o ∧ Dict.get? summaries o = none := by
    intro ch hch
    obtain ⟨hmem, i, hget, _hpair⟩ := chaptersToGenerate_spec chapters summaries ch hch
    obtain ⟨o, ho⟩ := Option.ne_none_iff_exists'.1 (horder ch hmem)
    refine ⟨o, ho, ?_⟩
    rw [ho] at hget
    simpa using hget
  refine ⟨hsel, ?_⟩
  intro out hout k v hk
  unfold generateAllSummariesWorkflow at hout
  by_cases h0 : (chaptersToGenerate chapters summaries).isEmpty
  · rw [if_pos h0] at hout
    exact absurd hout (by simp)
  rw [if_neg h0] at hout
  cases available with
  | false => simp at hout
  | true =>
  cases confirmed with
  | false => simp at hout
  | true =>
  simp only [Bool.not_true, Bool.false_eq_true, if_false] at hout
  by_cases hre : (summariesGenLoop gen (Dict.empty, [])
      (enumFrom 1 (chaptersToGenerate chapters summaries))).1.isEmpty
  · rw [if_pos hre] at hout
    exact absurd hout (by simp)
  rw [if_neg hre] at hout
  have hout' : out = Dict.merge summaries
      (summariesGenLoop gen (Dict.empty, [])
        (enumFrom 1 (chaptersToGenerate chapters summaries))).1 :=
    (Option.some.inj hout).symm
  subst hout'
  rw [Dict.get?_merge_of_not_mem]
  · exact hk
  · intro hkmem
    rcases summariesGenLoop_keys_sub gen
        (enumFrom 1 (chaptersToGenerate chapters summaries)) Dict.empty [] k hkmem
      with h | ⟨p, hp, hpk⟩
    · simp [Dict.keys, Dict.empty] at h
    · have hchm : p.2 ∈ chaptersToGenerate chapters summaries :=
        enumFrom_mem_snd 1 _ p hp
      obtain ⟨o, ho, hnone⟩ := hsel p.2 hchm
      rw [ho] at hpk
      simp only [Option.getD_some] at hpk
      rw [hpk] at hk
      rw [hk] at hnone
      exact absurd hnone (by simp)

/-- Claim C8, witness: the theorem at a concrete store — chapter 1 already
summarized, chapter 2 freshly generated; the written mapping still holds the
old entry for chapter 1. -/
theorem resume_preserves_existing_summaries_witness :
    Dict.get? [(1, SummaryEntry.mk "A" "S1"), (2, SummaryEntry.mk "B" "new")] 1
      = some (SummaryEntry.mk "A" "S1") :=
  (resume_preserves_existing_summaries true true
      [⟨some 1, some "A"⟩, ⟨some 2, some "B"⟩] [(1, SummaryEntry.mk "A" "S1")]
      (fun _ _ => TaskOutcome.value (some "new"))
      (by intro ch hch; fin_cases hch <;> simp)).2
    [(1, SummaryEntry.mk "A" "S1"), (2, SummaryEntry.mk "B" "new")] rfl
    1 (SummaryEntry.mk "A" "S1") rfl

/-- The dispatched task list of `generate_all_novels_with_refinement_async`:
chapter indices 1..N whose key is present in `summaries`. -/
def refinementTasks {σ : Type} (chapters : List Chapter) (summaries : Dict Nat σ) :
    List (Nat × Chapter) :=
  (enumFrom 1 chapters).filter (fun p => (Dict.get? summaries p.1).isSome)

/-- Claim C1: in both batch generators, every dispatched unit ends in exactly
one outcome — its key in the results mapping or its index in the failed list,
never both, never neither; the sizes sum to the number of dispatched units,
and zero units yield the empty batch result. -/
theorem batch_units_have_exactly_one_outcome {σ : Type}
    (chapters chaptersR : List Chapter) (summaries : Dict Nat σ)
    (outcomes outcomesR : List TaskOutcome)
    (hlen : outcomes.length = chapters.length)
    (hlenR : outcomesR.length = (refinementTasks chaptersR summaries).length) :
    ((generateAllSummariesAsync true chapters outcomes).1.size
        + (generateAllSummariesAsync true chapters outcomes).2.length
        = chapters.length) ∧
    (∀ i ∈ (enumFrom 1 chapters).map Prod.fst,
        ((Dict.get? (generateAllSummariesAsync true chapters outcomes).1 i).isSome = true
          ↔ i ∉ (generateAllSummariesAsync true chapters outcomes).2)) ∧
    (∀ i, ¬((Dict.get? (generateAllSummariesAsync true chapters outcomes).1 i).isSome = true
          ∧ i ∈ (generateAllSummariesAsync true chapters outcomes).2)) ∧
    (chapters = [] → generateAllSummariesAsync true chapters outcomes = (Dict.empty, [])) ∧
    ((generateAllNovelsWithRefinementAsync true chaptersR summaries outcomesR).1.size
        + (generateAllNovelsWithRefinementAsync true chaptersR summaries outcomesR).2.length
        = (refinementTasks chaptersR summaries).length) ∧
    (∀ i ∈ (refinementTasks chaptersR summaries).map Prod.fst,
        ((Dict.get? (generateAllNovelsWithRefinementAsync true chaptersR summaries
            outcomesR).1 i).isSome = true
          ↔ i ∉ (generateAllNovelsWithRefinementAsync true chaptersR summaries outcomesR).2)) ∧
    (∀ i, ¬((Dict.get? (generateAllNovelsWithRefinementAsync true chaptersR summaries
            outcomesR).1 i).isSome = true
          ∧ i ∈ (generateAllNovelsWithRefinementAsync true chaptersR summaries outcomesR).2)) ∧
    (refinementTasks chaptersR summaries = [] →
        generateAllNovelsWithRefinementAsync true chaptersR summaries outcomesR
          = (Dict.empty, [])) := by
  have hnodupS : ((enumFrom 1 chapters).map Prod.fst).Nodup := enumFrom_map_fst_nodup 1 chapters
  have hS := batchRun_partition
    (fun i ch s => SummaryEntry.mk (ch.title.getD (defaultTitle i)) s)
    (enumFrom 1 chapters) outcomes hnodupS
    (by rw [enumFrom_length]; exact hlen)
  have hnodupR : ((refinementTasks chaptersR summaries).map Prod.fst).Nodup :=
    (enumFrom_map_fst_nodup 1 chaptersR).sublist
      ((List.filter_sublist (enumFrom 1 chaptersR)).map Prod.fst)
  have hR := batchRun_partition
    (fun i ch s => NovelEntry.mk (ch.title.getD (defaultTitle i)) s s.length)
    (refinementTasks chaptersR summaries) outcomesR hnodupR hlenR
  have heS : generateAllSummariesAsync true chapters outcomes
      = batchCollect (fun i ch s => SummaryEntry.mk (ch.title.getD (defaultTitle i)) s)
          ([], []) ((enumFrom 1 chapters).zip outcomes) := rfl
  have heR : generateAllNovelsWithRefinementAsync true chaptersR summaries outcomesR
      = batchCollect (fun i ch s => NovelEntry.mk (ch.title.getD (defaultTitle i)) s s.length)
          ([], []) ((refinementTasks chaptersR summaries).zip outcomesR) := rfl
  rw [heS, heR]
  refine ⟨?_, hS.2.1, hS.2.2.1, ?_, hR.1, hR.2.1, hR.2.2.1, hR.2.2.2⟩
  · have h1 := hS.1
    rw [enumFrom_length] at h1
    exact h1
  · intro hnil
    exact hS.2.2.2 (by rw [hnil]; rfl)

/-- Claim C1, witness: a two-chapter summary batch (one success, one
exception) and a one-task refinement batch (a soft failure) each have sizes
summing to the unit count. -/
theorem batch_units_have_exactly_one_outcome_witness :
    ((generateAllSummariesAsync true [Chapter.mk (some 1) (some "A"), Chapter.mk none none]
        [TaskOutcome.value (some "s1"), TaskOutcome.exn "boom"]).1.size
      + (generateAllSummariesAsync true [Chapter.mk (some 1) (some "A"), Chapter.mk none none]
        [TaskOutcome.value (some "s1"), TaskOutcome.exn "boom"]).2.length = 2) ∧
    ((generateAllNovelsWithRefinementAsync true
        [Chapter.mk (some 1) (some "A"), Chapter.mk none none]
        [(1, SummaryEntry.mk "A" "S1")] [TaskOutcome.value none]).1.size
      + (generateAllNovelsWithRefinementAsync true
        [Chapter.mk (some 1) (some "A"), Chapter.mk none none]
        [(1, SummaryEntry.mk "A" "S1")] [TaskOutcome.value none]).2.length = 1) := by
  have h := batch_units_have_exactly_one_outcome
    [Chapter.mk (some 1) (some "A"), Chapter.mk none none]
    [Chapter.mk (some 1) (some "A"), Chapter.mk none none]
    [(1, SummaryEntry.mk "A" "S1")]
    [TaskOutcome.value (some "s1"), TaskOutcome.exn "boom"]
    [TaskOutcome.value none] rfl (by rfl)
  exact ⟨h.1, h.2.2.2.2.1⟩

/-- The async JSON-request loop returns the same result and issues the same
prompts as the sync loop; the progress messages are extra output only. -/
theorem makeJsonRequestAsyncGo_agrees (respond : Nat → String → Option String)
    (ic hc : Bool) (tn : String) :
    ∀ (rem attempt : Nat) (prompt : String) (used msgs : List String),
      (makeJsonRequestAsyncGo respond ic hc tn rem attempt prompt used msgs).1
        = (makeJsonRequestGo respond ic rem attempt prompt used).1 ∧
      (makeJsonRequestAsyncGo respond ic hc tn rem attempt prompt used msgs).2.1
        = (makeJsonRequestGo respond ic rem attempt prompt used).2 := by
  intro rem
  induction rem with
  | zero => intro attempt prompt used msgs; exact ⟨rfl, rfl⟩
  | succ r ih =>
    intro attempt prompt used msgs
    cases hresp : respond attempt prompt with
    | none => simp [makeJsonRequestGo, makeJsonRequestAsyncGo, hresp]
    | some text =>
      cases hparse : tryParseJson text with
      | some v => simp [makeJsonRequestGo, makeJsonRequestAsyncGo, hresp, hparse]
      | none =>
        by_cases hlt : attempt < 2
        · simp only [makeJsonRequestGo, makeJsonRequestAsyncGo, hresp, hparse, if_pos hlt]
          exact ih (attempt + 1) (amendedPrompt ic prompt) (used ++ [prompt]) _
        · simp [makeJsonRequestGo, makeJsonRequestAsyncGo, hresp, hparse, hlt]

/-- The prompt issued by the k-th underlying request of `_make_json_request`:
the original prompt amended k times. -/
def promptAt (ic : Bool) (prompt : String) : Nat → String
  | 0 => prompt
  | k + 1 => amendedPrompt ic (promptAt ic prompt k)

theorem mjrGo_none (respond : Nat → String → Option String) (ic : Bool)
    (rem a : Nat) (p : String) (used : List String) (h : respond a p = none) :
    makeJsonRequestGo respond ic (rem + 1) a p used = (none, used ++ [p]) := by
  simp [makeJsonRequestGo, h]

theorem mjrGo_parsed (respond : Nat → String → Option String) (ic : Bool)
    (rem a : Nat) (p s : String) (v : JVal) (used : List String)
    (h : respond a p = some s) (hv : tryParseJson s = some v) :
    makeJsonRequestGo respond ic (rem + 1) a p used = (some v, used ++ [p]) := by
  simp [makeJsonRequestGo, h, hv]

theorem mjrGo_retry (respond : Nat → String → Option String) (ic : Bool)
    (rem a : Nat) (p s : String) (used : List String)
    (h : respond a p = some s) (hv : tryParseJson s = none) (ha : a < 2) :
    makeJsonRequestGo respond ic (rem + 1) a p used
      = makeJsonRequestGo respond ic rem (a + 1) (amendedPrompt ic p) (used ++ [p]) := by
  simp [makeJsonRequestGo, h, hv, ha]

theorem mjrGo_exhaust (respond : Nat → String → Option String) (ic : Bool)
    (rem a : Nat) (p s : String) (used : List String)
    (h : respond a p = some s) (hv : tryParseJson s = none) (ha : ¬ a < 2) :
    makeJsonRequestGo respond ic (rem + 1) a p used = (none, used ++ [p]) := by
  simp [makeJsonRequestGo, h, hv, ha]

/-- Claim C6: `_make_json_request` (sync and async) issues at most 3 (and at
least 1) underlying text requests, with the k-th request using the k-times
amended demand-pure-JSON prompt; it returns `None` at once when an underlying
request returns `None`, returns the first successfully parsed structure, and
returns `None` only after all attempts are exhausted; the async variant
returns the same result and issues the same prompts. -/
theorem json_request_retry_behaviour :
    ∀ (respond : Nat → String → Option String) (isCanon hasCallback : Bool)
      (taskName prompt : String),
      (1 ≤ (makeJsonRequest respond isCanon prompt).2.length ∧
        (makeJsonRequest respond isCanon prompt).2.length ≤ 3) ∧
      ((makeJsonRequest respond isCanon prompt).2 =
        (List.range (makeJsonRequest respond isCanon prompt).2.length).map
          (promptAt isCanon prompt)) ∧
      (∀ k, k < 3 →
        (∀ j, j < k → ∃ s, respond j (promptAt isCanon prompt j) = some s ∧
            tryParseJson s = none) →
        ((respond k (promptAt isCanon prompt k) = none →
            makeJsonRequest respond isCanon prompt =
              (none, (List.range (k + 1)).map (promptAt isCanon prompt))) ∧
          (∀ s v, respond k (promptAt isCanon prompt k) = some s →
            tryParseJson s = some v →
            makeJsonRequest respond isCanon prompt =
              (some v, (List.range (k + 1)).map (promptAt isCanon prompt))))) ∧
      ((∀ j, j < 3 → ∃ s, respond j (promptAt isCanon prompt j) = some s ∧
          tryParseJson s = none) →
        makeJsonRequest respond isCanon prompt =
          (none, (List.range 3).map (promptAt isCanon prompt))) ∧
      ((makeJsonRequestAsync respond isCanon hasCallback taskName prompt).1
          = (makeJsonRequest respond isCanon prompt).1 ∧
        (makeJsonRequestAsync respond isCanon hasCallback taskName prompt).2.1
          = (makeJsonRequest respond isCanon prompt).2) := by
  intro respond ic hc tn p0
  have hr1 : (List.range 1).map (promptAt ic p0) = [p0] := rfl
  have hr2 : (List.range 2).map (promptAt ic p0) = [p0, amendedPrompt ic p0] := rfl
  have hr3 : (List.range 3).map (promptAt ic p0)
      = [p0, amendedPrompt ic p0, amendedPrompt ic (amendedPrompt ic p0)] := rfl
  have hshape : makeJsonRequest respond ic p0 = (none, [p0]) ∨
      (∃ v, makeJsonRequest respond ic p0 = (some v, [p0])) ∨
      makeJsonRequest respond ic p0 = (none, [p0, amendedPrompt ic p0]) ∨
      (∃ v, makeJsonRequest respond ic p0 = (some v, [p0, amendedPrompt ic p0])) ∨
      makeJsonRequest respond ic p0
        = (none, [p0, amendedPrompt ic p0, amendedPrompt ic (amendedPrompt ic p0)]) ∨
      (∃ v, makeJsonRequest respond ic p0
        = (some v, [p0, amendedPrompt ic p0, amendedPrompt ic (amendedPrompt ic p0)])) := by
    unfold makeJsonRequest
    cases h0 : respond 0 p0 with
    | none =>
      exact Or.inl (mjrGo_none respond ic 2 0 p0 [] h0)
    | some s0 =>
      cases hq0 : tryParseJson s0 with
      | some v =>
        exact Or.inr (Or.inl ⟨v, mjrGo_parsed respond ic 2 0 p0 s0 v [] h0 hq0⟩)
      | none =>
        have hstepA : makeJsonRequestGo respond ic 3 0 p0 []
            = makeJsonRequestGo respond ic 2 1 (amendedPrompt ic p0) [p0] :=
          mjrGo_retry respond ic 2 0 p0 s0 [] h0 hq0 (by omega)
        rw [hstepA]
        cases h1 : respond 1 (amendedPrompt ic p0) with
        | none =>
          exact Or.inr (Or.inr (Or.inl
            (mjrGo_none respond ic 1 1 (amendedPrompt ic p0) [p0] h1)))
        | some s1 =>
          cases hq1 : tryParseJson s1 with
          | some v =>
            exact Or.inr (Or.inr (Or.inr (Or.inl
              ⟨v, mjrGo_parsed respond ic 1 1 (amendedPrompt ic p0) s1 v [p0] h1 hq1⟩)))
          | none =>
            have hstepB : makeJsonRequestGo respond ic 2 1 (amendedPrompt ic p0) [p0]
                = makeJsonRequestGo respond ic 1 2
                    (amendedPrompt ic (amendedPrompt ic p0)) [p0, amendedPrompt ic p0] :=
              mjrGo_retry respond ic 1 1 (amendedPrompt ic p0) s1 [p0] h1 hq1 (by omega)
            rw [hstepB]
            cases h2 : respond 2 (amendedPrompt ic (amendedPrompt ic p0)) with
            | none =>
              exact Or.inr (Or.inr (Or.inr (Or.inr (Or.inl
                (mjrGo_none respond ic 0 2 _ [p0, amendedPrompt ic p0] h2)))))
            | some s2 =>
              cases hq2 : tryParseJson s2 with
              | some v =>
                exact Or.inr (Or.inr (Or.inr (Or.inr (Or.inr
                  ⟨v, mjrGo_parsed respond ic 0 2 _ s2 v [p0, amendedPrompt ic p0] h2 hq2⟩))))
              | none =>
                exact Or.inr (Or.inr (Or.inr (Or.inr (Or.inl
                  (mjrGo_exhaust respond ic 0 2 _ s2 [p0, amendedPrompt ic p0] h2 hq2
                    (by omega))))))
    
  refine ⟨?_, ?_, ?_, ?_, ?_⟩
  · rcases hshape with h | ⟨v, h⟩ | h | ⟨v, h⟩ | h | ⟨v, h⟩ <;> rw [h] <;> simp
  · rcases hshape with h | ⟨v, h⟩ | h | ⟨v, h⟩ | h | ⟨v, h⟩ <;> rw [h] <;>
      first
        | exact hr1.symm
        | exact hr2.symm
        | exact hr3.symm
  · intro k hk hprev
    interval_cases k
    · constructor
      · intro h0
        rw [hr1]
        unfold makeJsonRequest
        exact mjrGo_none respond ic 2 0 p0 [] h0
      · intro s v hs hv
        rw [hr1]
        unfold makeJsonRequest
        exact mjrGo_parsed respond ic 2 0 p0 s v [] hs hv
    · obtain ⟨s0, hs0, hq0⟩ := hprev 0 (by omega)
      have hstep : makeJsonRequestGo respond ic 3 0 p0 []
          = makeJsonRequestGo respond ic 2 1 (amendedPrompt ic p0) [p0] :=
        mjrGo_retry respond ic 2 0 p0 s0 [] hs0 hq0 (by omega)
      constructor
      · intro h1
        rw [hr2]
        unfold makeJsonRequest
        rw [hstep]
        exact mjrGo_none respond ic 1 1 (amendedPrompt ic p0) [p0] h1
      · intro s v hs hv
        rw [hr2]
        unfold makeJsonRequest
        rw [hstep]
        exact mjrGo_parsed respond ic 1 1 (amendedPrompt ic p0) s v [p0] hs hv
    · obtain ⟨s0, hs0, hq0⟩ := hprev 0 (by omega)
      obtain ⟨s1, hs1, hq1⟩ := hprev 1 (by omega)
      have hstep : makeJsonRequestGo respond ic 3 0 p0 []
          = makeJsonRequestGo respond ic 2 1 (amendedPrompt ic p0) [p0] :=
        mjrGo_retry respond ic 2 0 p0 s0 [] hs0 hq0 (by omega)
      have hstep2 : makeJsonRequestGo respond ic 2 1 (amendedPrompt ic p0) [p0]
          = makeJsonRequestGo respond ic 1 2 (amendedPrompt ic (amendedPrompt ic p0))
              [p0, amendedPrompt ic p0] :=
        mjrGo_retry respond ic 1 1 (amendedPrompt ic p0) s1 [p0] hs1 hq1 (by omega)
      constructor
      · intro h2
        rw [hr3]
        unfold makeJsonRequest
        rw [hstep, hstep2]
        exact mjrGo_none respond ic 0 2 _ [p0, amendedPrompt ic p0] h2
      · intro s v hs hv
        rw [hr3]
        unfold makeJsonRequest
        rw [hstep, hstep2]
        exact mjrGo_parsed respond ic 0 2 _ s v [p0, amendedPrompt ic p0] hs hv
  · intro hall
    obtain ⟨s0, hs0, hq0⟩ := hall 0 (by omega)
    obtain ⟨s1, hs1, hq1⟩ := hall 1 (by omega)
    obtain ⟨s2, hs2, hq2⟩ := hall 2 (by omega)
    rw [hr3]
    unfold makeJsonRequest
    have hstepA : makeJsonRequestGo respond ic 3 0 p0 []
        = makeJsonRequestGo respond ic 2 1 (amendedPrompt ic p0) [p0] :=
      mjrGo_retry respond ic 2 0 p0 s0 [] hs0 hq0 (by omega)
    have hstepB : makeJsonRequestGo respond ic 2 1 (amendedPrompt ic p0) [p0]
        = makeJsonRequestGo respond ic 1 2
            (amendedPrompt ic (amendedPrompt ic p0)) [p0, amendedPrompt ic p0] :=
      mjrGo_retry respond ic 1 1 (amendedPrompt ic p0) s1 [p0] hs1 hq1 (by omega)
    rw [hstepA, hstepB]
    exact mjrGo_exhaust respond ic 0 2 _ s2 [p0, amendedPrompt ic p0] hs2 hq2 (by omega)
  · exact makeJsonRequestAsyncGo_agrees respond ic hc tn 3 0 p0 [] []

/-- Claim C6, witness: the theorem at a concrete oracle whose first response
is a soft failure — one request is issued and the result is `None`. -/
theorem json_request_retry_behaviour_witness :
    makeJsonRequest (fun _ _ => none) false "p" = (none, ["p"]) :=
  ((json_request_retry_behaviour (fun _ _ => none) false false "t" "p").2.2.1 0
    (by omega) (by intro j hj; omega)).1 rfl

end MetaNovel
